import Mathlib

/- Shallow embedding of the NLP_Calendar repository (src/CalendarApp.py and
   src/Test.py): the structured event data model, the extraction
   normalization / coercion step of parse_event, and the calendar record
   builders create_ics_file of both files, together with theorems checking
   the natural-language specification against this embedding.

   Conventions used throughout:
   - Python datetime.strptime with the formats "%Y-%m-%d" and "%H:%M" is
     modelled character by character after the regular expressions CPython
     builds for the directives %Y, %m, %d, %H, %M, including the final
     calendar-validity check done by the date constructor.
   - Python truthiness on optional strings and lists (the source guards
     every optional field with a bare `if field:`) is modelled by the
     truthyStr / truthyList helpers: None and the empty string / empty list
     both count as absent.
   - datetime.date.max is 9999-12-31; adding a timedelta that passes it
     raises OverflowError, modelled by nextDayChecked / addOneHour
     returning none. -/

/-- Calendar date (year, month, day), as produced by datetime.date. -/
structure Date where
  y : Nat
  m : Nat
  d : Nat
deriving DecidableEq

/-- Wall-clock time of day at minute granularity, as produced by datetime.time. -/
structure Time where
  hr : Nat
  mi : Nat
deriving DecidableEq

/-- Naive timestamp: a date combined with a time of day. -/
structure DateTime where
  date : Date
  time : Time
deriving DecidableEq

/-- Gregorian leap-year rule used by datetime. -/
def isLeap (y : Nat) : Bool :=
  (y % 4 == 0 && y % 100 != 0) || y % 400 == 0

/-- Number of days of month m in year y. -/
def daysInMonth (y m : Nat) : Nat :=
  if m == 2 then (if isLeap y then 29 else 28)
  else if m == 4 || m == 6 || m == 9 || m == 11 then 30
  else 31

/-- Successor day in the Gregorian calendar. -/
def nextDay (dt : Date) : Date :=
  if dt.d < daysInMonth dt.y dt.m then ⟨dt.y, dt.m, dt.d + 1⟩
  else if dt.m < 12 then ⟨dt.y, dt.m + 1, 1⟩
  else ⟨dt.y + 1, 1, 1⟩

/-- date + timedelta(days=1): none models the OverflowError raised past
datetime.date.max, which is 9999-12-31. -/
def nextDayChecked (dt : Date) : Option Date :=
  if dt.y == 9999 && dt.m == 12 && dt.d == 31 then none
  else some (nextDay dt)

/-- datetime + timedelta(hours=1), rolling over midnight; none models the
OverflowError raised past datetime.max. -/
def addOneHour (dt : DateTime) : Option DateTime :=
  if dt.time.hr < 23 then some ⟨dt.date, ⟨dt.time.hr + 1, dt.time.mi⟩⟩
  else (nextDayChecked dt.date).map (fun nd => ⟨nd, ⟨0, dt.time.mi⟩⟩)

/-- Numeric value of a digit character. -/
def digitVal (c : Char) : Nat := c.toNat - 48

/-- Character is a digit in 1..9. -/
def isDig19 (c : Char) : Bool := c.isDigit && c != '0'

/-- Character is a digit less than or equal to the digit hi. -/
def leDig (c hi : Char) : Bool := c.isDigit && c.toNat ≤ hi.toNat

/-- The %Y directive: exactly four digits. -/
def parseYear : List Char → Option (Nat × List Char)
  | a :: b :: c :: d :: rest =>
    if a.isDigit && b.isDigit && c.isDigit && d.isDigit then
      some (digitVal a * 1000 + digitVal b * 100 + digitVal c * 10 + digitVal d, rest)
    else none
  | _ => none

/-- The %m directive, after the ordered regex alternatives 1[0-2], 0[1-9], [1-9]. -/
def parseMonth : List Char → Option (Nat × List Char)
  | c1 :: c2 :: rest =>
    if c1 == '1' && leDig c2 '2' then some (10 + digitVal c2, rest)
    else if c1 == '0' && isDig19 c2 then some (digitVal c2, rest)
    else if isDig19 c1 then some (digitVal c1, c2 :: rest)
    else none
  | [c1] => if isDig19 c1 then some (digitVal c1, []) else none
  | [] => none

/-- The %d directive, after the ordered regex alternatives 3[01], [12]d, 0[1-9], [1-9]. -/
def parseDay : List Char → Option (Nat × List Char)
  | c1 :: c2 :: rest =>
    if c1 == '3' && (c2 == '0' || c2 == '1') then some (30 + digitVal c2, rest)
    else if (c1 == '1' || c1 == '2') && c2.isDigit then some (10 * digitVal c1 + digitVal c2, rest)
    else if c1 == '0' && isDig19 c2 then some (digitVal c2, rest)
    else if isDig19 c1 then some (digitVal c1, c2 :: rest)
    else none
  | [c1] => if isDig19 c1 then some (digitVal c1, []) else none
  | [] => none

/-- The %H directive, after the ordered regex alternatives 2[0-3], [0-1]d, d. -/
def parseHour : List Char → Option (Nat × List Char)
  | c1 :: c2 :: rest =>
    if c1 == '2' && leDig c2 '3' then some (20 + digitVal c2, rest)
    else if (c1 == '0' || c1 == '1') && c2.isDigit then some (10 * digitVal c1 + digitVal c2, rest)
    else if c1.isDigit then some (digitVal c1, c2 :: rest)
    else none
  | [c1] => if c1.isDigit then some (digitVal c1, []) else none
  | [] => none

/-- The %M directive, after the ordered regex alternatives [0-5]d, d. -/
def parseMinute : List Char → Option (Nat × List Char)
  | c1 :: c2 :: rest =>
    if leDig c1 '5' && c2.isDigit then some (10 * digitVal c1 + digitVal c2, rest)
    else if c1.isDigit then some (digitVal c1, c2 :: rest)
    else none
  | [c1] => if c1.isDigit then some (digitVal c1, []) else none
  | [] => none

/-- A literal separator character of the format string. -/
def expectChar (c : Char) : List Char → Option (List Char)
  | x :: r => if x == c then some r else none
  | [] => none

/-- Date part of strptime with format Y-m-d: the three directives joined by
dashes, then the calendar-validity check performed by the date constructor
(month range is already forced by the directive; year 0 is below
datetime.MINYEAR and rejected). -/
def parseDateL (l : List Char) : Option (Date × List Char) :=
  (parseYear l).bind fun yr =>
  (expectChar '-' yr.2).bind fun r1 =>
  (parseMonth r1).bind fun mr =>
  (expectChar '-' mr.2).bind fun r3 =>
  (parseDay r3).bind fun dr =>
  if 1 ≤ yr.1 ∧ dr.1 ≤ daysInMonth yr.1 mr.1 then some (⟨yr.1, mr.1, dr.1⟩, dr.2) else none

/-- datetime.strptime(s, "%Y-%m-%d").date(): the whole string must be consumed. -/
def parseDate (s : String) : Option Date :=
  match parseDateL s.data with
  | some (dt, []) => some dt
  | _ => none

/-- Time part of strptime with format H:M. -/
def parseTimeL (l : List Char) : Option (Time × List Char) :=
  (parseHour l).bind fun hr2 =>
  (expectChar ':' hr2.2).bind fun r1 =>
  (parseMinute r1).bind fun mr =>
  some (⟨hr2.1, mr.1⟩, mr.2)

/-- datetime.strptime(s, "%H:%M").time(): the whole string must be consumed. -/
def parseTime (s : String) : Option Time :=
  match parseTimeL s.data with
  | some (t, []) => some t
  | _ => none

/-- datetime.strptime(s, "%Y-%m-%d %H:%M"): date part, one space, time part,
with the whole string consumed. -/
def parseDateTime (s : String) : Option DateTime :=
  (parseDateL s.data).bind fun dr =>
  (expectChar ' ' dr.2).bind fun r =>
  match parseTimeL r with
  | some (t, []) => some ⟨dr.1, t⟩
  | _ => none

/-- JSON values as returned by json.loads; numbers are modelled as integers
(no claim depends on float formatting). Objects keep insertion order, as
Python dicts do; json.loads never yields duplicate keys. -/
inductive Json where
  | null : Json
  | bool (b : Bool) : Json
  | num (n : Int) : Json
  | str (s : String) : Json
  | arr (l : List Json) : Json
  | obj (kvs : List (String × Json)) : Json

/-- Python truthiness on an optional string field: a bare `if field:` treats
None and the empty string alike, so both are mapped to none. -/
def truthyStr : Option String → Option String
  | some s => if s = "" then none else some s
  | none => none

/-- Python truthiness on the optional participants list: a bare
`if event.participants:` skips None and the empty list, and iterating the
empty list adds nothing, so both collapse to the empty list. -/
def truthyList : Option (List String) → List String
  | some l => l
  | none => []

/-- Value of x or y where x is an optional string, as the Python expression
`x or y` evaluates. -/
def orDefault (x : Option String) (y : String) : String :=
  match truthyStr x with
  | some s => s
  | none => y

namespace CalendarApp

/-- The pydantic model CalendarEvent of src/CalendarApp.py. -/
structure CalendarEvent where
  name : String
  start_date : String
  end_date : Option String := none
  start_time : Option String := none
  end_time : Option String := none
  timezone : Option String := none
  participants : Option (List String) := none
  location : Option String := none
  content : Option String := none
deriving DecidableEq

/-- A DTSTART or DTEND value added to the icalendar Event: either a bare
date or a datetime, the latter possibly carrying a timezone annotation. -/
inductive ICalValue where
  | dateVal (d : Date) : ICalValue
  | dateTimeVal (dt : DateTime) (tz : Option String) : ICalValue
deriving DecidableEq

/-- Timezone annotation of an emitted DTSTART or DTEND value. -/
def tzOf : ICalValue → Option String
  | .dateVal _ => none
  | .dateTimeVal _ tz => tz

/-- The single VEVENT component that create_ics_file adds to the calendar;
the fixed prodid and version headers of the surrounding container carry no
information and are omitted from the embedding. -/
structure IcsEvent where
  summary : String
  dtstart : ICalValue
  dtend : ICalValue
  location : Option String
  attendees : List String
deriving DecidableEq

/-- Failures of the builders: ValueError from strptime (the DateFormatError
of the specification), OverflowError from date arithmetic past year 9999,
and ZoneInfoNotFoundError (raised only by the Test.py variant). -/
inductive BuildErr where
  | dateFormatError : BuildErr
  | overflowError : BuildErr
  | zoneNotFound : BuildErr
deriving DecidableEq

/-- The attendee properties added by the loop over event.participants:
one MAILTO reference per participant, in order. -/
def attendeesOf (e : CalendarEvent) : List String :=
  (truthyList e.participants).map (fun p => "MAILTO:" ++ p)

/-- strptime on a date string, raising the ValueError of line 164 or 166 on
a malformed input. -/
def parseDateE (s : String) : Except BuildErr Date :=
  match parseDate s with
  | some d => .ok d
  | none => .error .dateFormatError

/-- Lines 164-168: end_date is parsed when truthy, otherwise the parsed
start date is reused. -/
def parseEndDate (e : CalendarEvent) (sd : Date) : Except BuildErr Date :=
  match truthyStr e.end_date with
  | some s => parseDateE s
  | none => .ok sd

/-- strptime on a combined "date time" string (lines 171 and 175). -/
def parseDateTimeE (s : String) : Except BuildErr DateTime :=
  match parseDateTime s with
  | some dt => .ok dt
  | none => .error .dateFormatError

/-- Lines 174-177: the end timestamp is the combined
"(end_date or start_date) end_time" parse when end_time is truthy, and the
start timestamp plus one hour otherwise. -/
def endDateTime (e : CalendarEvent) (sdt : DateTime) : Except BuildErr DateTime :=
  match truthyStr e.end_time with
  | some et => parseDateTimeE (orDefault e.end_date e.start_date ++ " " ++ et)
  | none =>
    match addOneHour sdt with
    | some edt => .ok edt
    | none => .error .overflowError

/-- Lines 170-178: the timed branch parses the combined start timestamp,
computes the end timestamp, and attaches the location and attendee
properties of lines 183-188. -/
def timedBranch (e : CalendarEvent) (st : String) : Except BuildErr IcsEvent :=
  (parseDateTimeE (e.start_date ++ " " ++ st)).bind fun sdt =>
  (endDateTime e sdt).bind fun edt =>
  .ok ⟨e.name, .dateTimeVal sdt none, .dateTimeVal edt none,
       truthyStr e.location, attendeesOf e⟩

/-- Lines 179-181: the all-day branch emits the date-only pair whose
exclusive end is one day past the resolved end date. -/
def alldayBranch (e : CalendarEvent) (sd ed : Date) : Except BuildErr IcsEvent :=
  match nextDayChecked ed with
  | some nd =>
    .ok ⟨e.name, .dateVal sd, .dateVal nd, truthyStr e.location, attendeesOf e⟩
  | none => .error .overflowError

/-- Lines 170-190 of src/CalendarApp.py, after both date fields have been
parsed: the branch is chosen by the truthiness of start_time. -/
def buildBody (e : CalendarEvent) (sd ed : Date) : Except BuildErr IcsEvent :=
  match truthyStr e.start_time with
  | some st => timedBranch e st
  | none => alldayBranch e sd ed

/-- The pure computation of create_ics_file in src/CalendarApp.py
(lines 156-197): parse start_date; parse end_date when truthy; then build
the component. The timezone field is never consulted. Writing the
temporary file is the external filesystem sink and is not part of this
data transformation. -/
def create_ics (e : CalendarEvent) : Except BuildErr IcsEvent :=
  (parseDateE e.start_date).bind fun sd =>
  (parseEndDate e sd).bind fun ed =>
  buildBody e sd ed

/-- create_ics_file of src/CalendarApp.py as seen by its caller: the built
component together with the name of the temporary file it was written to.
tempfile.NamedTemporaryFile chooses that name; it is passed in here as the
environment-supplied value tempName and is returned unchanged. -/
def create_ics_file (tempName : String) (e : CalendarEvent) : Except BuildErr (IcsEvent × String) :=
  (create_ics e).map (fun p => (p, tempName))

end CalendarApp

namespace CalendarApp

/-- Outcomes of parse_event in src/CalendarApp.py: the two ValueError
messages it raises itself (the ExtractionFormatError of the specification)
and the TypeError that Python raises when the loop body is applied to a
value that does not support the dict operations used there. -/
inductive ExtractErr where
  | invalidJson : ExtractErr
  | unexpectedFormat : ExtractErr
  | typeError : ExtractErr
deriving DecidableEq

/-- An ExtractErr that parse_event raises as a ValueError, surfaced to the
caller as the ExtractionFormatError of the specification. -/
def isFormatErr : ExtractErr → Bool
  | .invalidJson => true
  | .unexpectedFormat => true
  | .typeError => false

/-- Dictionary lookup on a parsed JSON object. -/
def jlookup : List (String × Json) → String → Option Json
  | [], _ => none
  | (k, v) :: rest, key => if k = key then some v else jlookup rest key

/-- Python truthiness of a JSON value, as `not event[key]` evaluates it. -/
def jfalsy : Json → Bool
  | .null => true
  | .bool b => !b
  | .num n => n == 0
  | .str s => s == ""
  | .arr l => l.isEmpty
  | .obj kvs => kvs.isEmpty

/-- The guard `key not in event or not event[key]` of lines 139 and 141. -/
def needsDefault (kvs : List (String × Json)) (key : String) : Bool :=
  match jlookup kvs key with
  | none => true
  | some v => jfalsy v

/-- Dictionary assignment event[key] = v: replace the value when the key is
present, otherwise append the new entry in insertion order. -/
def setKey (kvs : List (String × Json)) (key : String) (v : Json) : List (String × Json) :=
  if (jlookup kvs key).isSome then
    kvs.map (fun p => if p.1 = key then (p.1, v) else p)
  else kvs ++ [(key, v)]

/-- The name substitution of lines 139-140: a missing or falsy name becomes
"Untitled Event". -/
def applyNameDefault (kvs : List (String × Json)) : List (String × Json) :=
  if needsDefault kvs "name" then setKey kvs "name" (.str "Untitled Event") else kvs

/-- The start_date substitution of lines 141-142: a missing or falsy
start_date becomes the reference date. -/
def applyStartDefault (cur : String) (kvs : List (String × Json)) : List (String × Json) :=
  if needsDefault kvs "start_date" then setKey kvs "start_date" (.str cur) else kvs

/-- Both substitutions, in source order: name first, then start_date. -/
def withDefaults (cur : String) (kvs : List (String × Json)) : List (String × Json) :=
  applyStartDefault cur (applyNameDefault kvs)

/-- Coercion of a JSON value into a pydantic str field: strings pass, and
numbers and booleans are stringified by the lenient v1 str validator;
anything else fails validation. -/
def toStrJ : Json → Option String
  | .str s => some s
  | .num n => some (toString n)
  | .bool b => some (if b then "True" else "False")
  | _ => none

/-- Coercion of an Optional[str] field: a missing key or a null value is
None, otherwise the str validator applies. -/
def optStrField (kvs : List (String × Json)) (key : String) : Option (Option String) :=
  match jlookup kvs key with
  | none => some none
  | some .null => some none
  | some v => (toStrJ v).map some

/-- Coercion of the Optional[List[str]] participants field: a missing key or
null is None, a JSON array is accepted element-wise, and any other value
fails validation (the v1 list validator rejects plain strings). -/
def participantsField (kvs : List (String × Json)) : Option (Option (List String)) :=
  match jlookup kvs "participants" with
  | none => some none
  | some .null => some none
  | some (.arr l) => (l.mapM toStrJ).map some
  | some _ => none

/-- CalendarEvent.parse_obj on a parsed JSON object: all fields are
validated; none yields the ValidationError that line 147 catches. -/
def parse_obj (kvs : List (String × Json)) : Option CalendarEvent :=
  ((jlookup kvs "name").bind toStrJ).bind fun nm =>
  ((jlookup kvs "start_date").bind toStrJ).bind fun sd =>
  (optStrField kvs "end_date").bind fun ed =>
  (optStrField kvs "start_time").bind fun st =>
  (optStrField kvs "end_time").bind fun et =>
  (optStrField kvs "timezone").bind fun tz =>
  (participantsField kvs).bind fun parts =>
  (optStrField kvs "location").bind fun loc =>
  (optStrField kvs "content").bind fun cont =>
  some ⟨nm, sd, ed, st, et, tz, parts, loc, cont⟩

/-- Outcome of one iteration of the loop of lines 137-151. -/
inductive ElemResult where
  | ok (e : CalendarEvent) : ElemResult
  | skip : ElemResult
  | tyErr : ElemResult
deriving DecidableEq

/-- List membership test `s in l` as Python evaluates it for a string s:
equality holds only against string elements. -/
def hasStrElem (l : List Json) (s : String) : Bool :=
  l.any (fun j => match j with | .str t => t == s | _ => false)

/-- Substring containment, as `pat in s` tests for Python strings. -/
def startsL : List Char → List Char → Bool
  | [], _ => true
  | _ :: _, [] => false
  | p :: ps, c :: cs => p == c && startsL ps cs

/-- Substring occurs somewhere in the character list. -/
def isSubL (pat : List Char) : List Char → Bool
  | [] => pat.isEmpty
  | c :: cs => startsL pat (c :: cs) || isSubL pat cs

/-- Substring containment on strings. -/
def containsSub (s pat : String) : Bool := isSubL pat.data s.data

/-- One iteration of the loop body of lines 137-151 on a candidate value.
For a JSON object the defaults are applied and parse_obj either yields a
record or a ValidationError that is caught and skipped. For a string, the
checks of lines 139 and 141 are substring tests and the assignment of line
140 or 142 raises TypeError unless both substrings occur, in which case
parse_obj on a non-dict raises a caught ValidationError. For an array, the
checks are membership tests and the assignment raises TypeError unless both
strings are elements, in which case parse_obj again fails validation
(dict() cannot consume the length-4 string element "name"). For any other
value the containment test of line 139 itself raises TypeError. -/
def processElem (cur : String) : Json → ElemResult
  | .obj kvs =>
    match parse_obj (withDefaults cur kvs) with
    | some ev => .ok ev
    | none => .skip
  | .str s =>
    if containsSub s "name" && containsSub s "start_date" then .skip else .tyErr
  | .arr l =>
    if hasStrElem l "name" && hasStrElem l "start_date" then .skip else .tyErr
  | _ => .tyErr

/-- The loop of lines 137-151 over the candidate list: validated records are
collected in order, caught validation failures are skipped, and a TypeError
aborts the whole call. -/
def coerceLoop (cur : String) : List Json → Except ExtractErr (List CalendarEvent)
  | [] => .ok []
  | j :: rest =>
    match processElem cur j with
    | .ok ev => (coerceLoop cur rest).map (fun l => ev :: l)
    | .skip => coerceLoop cur rest
    | .tyErr => .error .typeError

/-- The `for event in events:` iteration applied to whatever value the
normalization step produced: a list iterates its elements, a string
iterates its characters, a dict iterates its keys, and any other value
raises TypeError immediately. -/
def validateEvents (cur : String) : Json → Except ExtractErr (List CalendarEvent)
  | .arr l => coerceLoop cur l
  | .str s => coerceLoop cur (s.data.map (fun c => .str (String.singleton c)))
  | .obj kvs => coerceLoop cur (kvs.map (fun p => .str p.1))
  | _ => .error .typeError

/-- Lines 128-134: json.loads failure raises the "Invalid JSON response"
ValueError; a top-level list is used as is; a dict is replaced by
parsed_data.get of the events key with the one-element list [parsed_data]
as default; any other value raises the "Unexpected data format" ValueError.
The returned value is whatever the events variable is bound to, which need
not be a list when the events key maps elsewhere. -/
def normalize_events : Option Json → Except ExtractErr Json
  | none => .error .invalidJson
  | some (.arr l) => .ok (.arr l)
  | some (.obj kvs) =>
    .ok (match jlookup kvs "events" with
         | some v => v
         | none => .arr [.obj kvs])
  | some _ => .error .unexpectedFormat

/-- parse_event of src/CalendarApp.py (lines 116-154) after the external
model call: cur is the reference date string and resp the decoded body,
with none standing for text that json.loads rejects. -/
def parse_event (cur : String) (resp : Option Json) : Except ExtractErr (List CalendarEvent) :=
  match normalize_events resp with
  | .ok j => validateEvents cur j
  | .error err => .error err

/-- The inner loop of generate_ics over the records parsed from one
description (lines 99-101): each record is built and handed to the
platform opener; the first exception raised by create_ics_file escapes to
the per-description handler, so the remaining records of that description
are dropped. The opener itself is an external side effect. -/
def buildRecords : List CalendarEvent → List IcsEvent
  | [] => []
  | e :: rest =>
    match create_ics e with
    | .ok p => p :: buildRecords rest
    | .error _ => []

/-- A description line that str.strip reduces to the empty string: every
character is Python whitespace. -/
def strippedEmpty (s : String) : Bool :=
  s.data.all (fun c =>
    c == ' ' || c == '\t' || c == '\n' || c == '\r' || c == '\x0b' || c == '\x0c')

/-- Processing of one description line in generate_ics (lines 94-109):
blank lines are skipped, an extraction failure is caught and reported for
that description alone, and otherwise its records are built until the
first builder exception. -/
def processDescription (cur : String) (descr : String) (resp : Option Json) : List IcsEvent :=
  if strippedEmpty descr then []
  else
    match parse_event cur resp with
    | .ok evs => buildRecords evs
    | .error _ => []

/-- generate_ics of src/CalendarApp.py over a batch of description lines,
each paired with the decoded upstream response its extraction call yields:
the calendar components actually built, in order. -/
def generate_ics (cur : String) : List (String × Option Json) → List IcsEvent
  | [] => []
  | (descr, resp) :: rest => processDescription cur descr resp ++ generate_ics cur rest

end CalendarApp

namespace Test

/-- The pydantic model CalendarEvent of src/Test.py: a single date field
and no end_date or content. -/
structure CalendarEvent where
  name : String
  date : String
  start_time : Option String := none
  end_time : Option String := none
  timezone : Option String := none
  participants : Option (List String) := none
  location : Option String := none
deriving DecidableEq

/-- The single VEVENT component built by create_ics_file of src/Test.py.
Unlike the CalendarApp variant, participants are assigned wholesale to the
attendee property as a raw list, without MAILTO references. -/
structure IcsEvent where
  summary : String
  dtstart : CalendarApp.ICalValue
  dtend : CalendarApp.ICalValue
  attendeeRaw : Option (List String)
  location : Option String
deriving DecidableEq

/-- Python truthiness on the optional participants list when the list
itself is kept: None and the empty list both count as absent under the
bare `if event.participants:` guard of line 70. -/
def truthyListOpt : Option (List String) → Option (List String)
  | some [] => none
  | some l => some l
  | none => none

/-- The name part of the output filename (line 80): only spaces are
replaced by underscores; every other character of the event name survives. -/
def sanitizeSpaces (s : String) : String :=
  ⟨s.data.map (fun c => if c = ' ' then '_' else c)⟩

/-- os.path.join for one component on POSIX: an absolute second component
discards the directory, and exactly one separator is inserted otherwise. -/
def joinPath (dir s : String) : String :=
  if (match s.data with | '/' :: _ => true | _ => false) then s
  else if dir = "" then s
  else if dir.data.getLast? == some '/' then dir ++ s
  else dir ++ "/" ++ s

/-- The output filename of create_ics_file in src/Test.py (line 80):
the directory of the script joined with the space-sanitized event name,
an underscore, the date string, and the .ics suffix. -/
def create_filename (dir : String) (e : CalendarEvent) : String :=
  joinPath dir (sanitizeSpaces e.name ++ "_" ++ e.date ++ ".ics")

/-- Lines 53-57: the end timestamp combines the same date with a strictly
parsed end_time, or defaults to one hour after the start. -/
def endTimeOrHour (e : CalendarEvent) (d : Date) (t : Time) :
    Except CalendarApp.BuildErr DateTime :=
  match truthyStr e.end_time with
  | some et =>
    match parseTime et with
    | some t2 => .ok ⟨d, t2⟩
    | none => .error .dateFormatError
  | none =>
    match addOneHour ⟨d, t⟩ with
    | some edt => .ok edt
    | none => .error .overflowError

/-- Lines 59-61: a truthy timezone is looked up in the zone database and
attached to both timestamps; an unknown key raises ZoneInfoNotFoundError. -/
def zoneAnnot (zdb : String → Bool) (e : CalendarEvent) :
    Except CalendarApp.BuildErr (Option String) :=
  match truthyStr e.timezone with
  | some tz => if zdb tz then .ok (some tz) else .error .zoneNotFound
  | none => .ok none

/-- The timed branch of lines 49-64. -/
def timedEvent (zdb : String → Bool) (e : CalendarEvent) (d : Date) (t : Time) :
    Except CalendarApp.BuildErr IcsEvent :=
  (endTimeOrHour e d t).bind fun edt =>
  (zoneAnnot zdb e).bind fun tzA =>
  .ok ⟨e.name, .dateTimeVal ⟨d, t⟩ tzA, .dateTimeVal edt tzA,
       truthyListOpt e.participants, truthyStr e.location⟩

/-- create_ics_file of src/Test.py (lines 39-84). zdb is the IANA zone
database consulted by ZoneInfo: false means the key is unknown and
ZoneInfoNotFoundError is raised. dir is the directory of the script. The
date is parsed strictly; with a start_time the times are parsed strictly,
the end defaults to one hour later, and a truthy timezone is attached to
both timestamps; without one a date-only pair with an exclusive end one
day later is emitted. Writing the file is the external sink. -/
def create_ics_file (zdb : String → Bool) (dir : String) (e : CalendarEvent) :
    Except CalendarApp.BuildErr (IcsEvent × String) :=
  match parseDate e.date with
  | none => .error .dateFormatError
  | some d =>
    match truthyStr e.start_time with
    | some st =>
      match parseTime st with
      | none => .error .dateFormatError
      | some t => (timedEvent zdb e d t).map (fun p => (p, create_filename dir e))
    | none =>
      match nextDayChecked d with
      | some nd =>
        .ok (⟨e.name, .dateVal d, .dateVal nd, truthyListOpt e.participants,
              truthyStr e.location⟩, create_filename dir e)
      | none => .error .overflowError

end Test


/-- Appending strings appends their character lists. -/
lemma strData_append (a b : String) : (a ++ b).data = a.data ++ b.data := by
  cases a; cases b; rfl

/-- A successful literal-separator step pins down the head of the input. -/
lemma expectChar_eq (c : Char) (l r : List Char) (h : expectChar c l = some r) :
    l = c :: r := by
  match l with
  | [] => simp [expectChar] at h
  | x :: rest =>
    by_cases hx : (x == c) = true
    · simp only [expectChar, hx, if_true, Option.some.injEq] at h
      have hxc : x = c := by simpa using hx
      rw [hxc, h]
    · simp [expectChar, hx] at h

/-- The %Y directive consumes exactly four characters, so extra input passes
through untouched. -/
lemma parseYear_extend (l m : List Char) (y : Nat) (r : List Char)
    (h : parseYear l = some (y, r)) : parseYear (l ++ m) = some (y, r ++ m) := by
  match l with
  | [] => simp [parseYear] at h
  | [_] => simp [parseYear] at h
  | [_, _] => simp [parseYear] at h
  | [_, _, _] => simp [parseYear] at h
  | a :: b :: c :: d :: rest =>
    simp only [List.cons_append, parseYear] at h ⊢
    by_cases hc : (a.isDigit && b.isDigit && c.isDigit && d.isDigit) = true
    · rw [if_pos hc] at h ⊢
      injection h with h1
      injection h1 with hv hr
      subst hv; subst hr
      rfl
    · rw [if_neg hc] at h
      exact absurd h (by simp)

/-- A literal separator consumes exactly one character. -/
lemma expectChar_extend (c : Char) (l m r : List Char)
    (h : expectChar c l = some r) : expectChar c (l ++ m) = some (r ++ m) := by
  match l with
  | [] => simp [expectChar] at h
  | x :: rest =>
    by_cases hx : (x == c) = true
    · simp only [expectChar, hx, if_true, Option.some.injEq] at h
      simp [List.cons_append, expectChar, hx, ← h]
    · simp [expectChar, hx] at h

/-- When the %m directive leaves a nonempty remainder, extending the input
does not change the branch taken. -/
lemma parseMonth_extend (l m : List Char) (v : Nat) (c : Char) (r : List Char)
    (h : parseMonth l = some (v, c :: r)) :
    parseMonth (l ++ m) = some (v, c :: (r ++ m)) := by
  match l with
  | [] => simp [parseMonth] at h
  | [c1] =>
    simp only [parseMonth] at h
    by_cases h4 : isDig19 c1 = true
    · rw [if_pos h4] at h
      injection h with h1
      injection h1 with hv hr
      exact absurd hr (by simp)
    · rw [if_neg h4] at h
      exact absurd h (by simp)
  | c1 :: c2 :: rest =>
    simp only [List.cons_append, parseMonth] at h ⊢
    by_cases h1 : (c1 == '1' && leDig c2 '2') = true
    · rw [if_pos h1] at h ⊢
      injection h with hp
      injection hp with hv hr
      subst hv; subst hr
      rfl
    · rw [if_neg h1] at h ⊢
      by_cases h2 : (c1 == '0' && isDig19 c2) = true
      · rw [if_pos h2] at h ⊢
        injection h with hp
        injection hp with hv hr
        subst hv; subst hr
        rfl
      · rw [if_neg h2] at h ⊢
        by_cases h3 : isDig19 c1 = true
        · rw [if_pos h3] at h ⊢
          injection h with hp
          injection hp with hv hr
          injection hr with hc hrest
          subst hv; subst hc; subst hrest
          rfl
        · rw [if_neg h3] at h
          exact absurd h (by simp)

/-- When the %d directive consumes the whole input, appending a space and
more characters reproduces the same reading followed by that input: none of
the alternatives can absorb the space. -/
lemma parseDay_extend_space (l m : List Char) (v : Nat)
    (h : parseDay l = some (v, [])) :
    parseDay (l ++ ' ' :: m) = some (v, ' ' :: m) := by
  have e0 : (((' ' : Char) == '0') || ((' ' : Char) == '1')) = false := rfl
  have ed : ((' ' : Char).isDigit) = false := rfl
  have e19 : isDig19 ' ' = false := rfl
  match l with
  | [] => simp [parseDay] at h
  | [c1] =>
    simp only [parseDay] at h
    by_cases h4 : isDig19 c1 = true
    · rw [if_pos h4] at h
      injection h with hp
      injection hp with hv hr
      subst hv
      show parseDay (c1 :: ' ' :: m) = some (digitVal c1, ' ' :: m)
      simp [parseDay, e0, ed, e19, h4]
    · rw [if_neg h4] at h
      exact absurd h (by simp)
  | c1 :: c2 :: rest =>
    simp only [List.cons_append, parseDay] at h ⊢
    by_cases h1 : (c1 == '3' && (c2 == '0' || c2 == '1')) = true
    · rw [if_pos h1] at h ⊢
      injection h with hp
      injection hp with hv hr
      subst hv; subst hr
      rfl
    · rw [if_neg h1] at h ⊢
      by_cases h2 : ((c1 == '1' || c1 == '2') && c2.isDigit) = true
      · rw [if_pos h2] at h ⊢
        injection h with hp
        injection hp with hv hr
        subst hv; subst hr
        rfl
      · rw [if_neg h2] at h ⊢
        by_cases h3 : (c1 == '0' && isDig19 c2) = true
        · rw [if_pos h3] at h ⊢
          injection h with hp
          injection hp with hv hr
          subst hv; subst hr
          rfl
        · rw [if_neg h3] at h ⊢
          by_cases h4 : isDig19 c1 = true
          · rw [if_pos h4] at h
            injection h with hp
            injection hp with hv hr
            exact absurd hr (by simp)
          · rw [if_neg h4] at h
            exact absurd h (by simp)

/-- Parsing a full date and then appending a space and further characters
reads the same date and leaves exactly that appended input. -/
lemma parseDateL_extend_space (l m : List Char) (dt : Date)
    (h : parseDateL l = some (dt, [])) :
    parseDateL (l ++ ' ' :: m) = some (dt, ' ' :: m) := by
  unfold parseDateL at h ⊢
  cases hy : parseYear l with
  | none => rw [hy] at h; simp at h
  | some yr =>
    obtain ⟨yv, r0⟩ := yr
    rw [hy] at h
    rw [parseYear_extend l (' ' :: m) yv r0 hy]
    simp only [Option.some_bind] at h ⊢
    cases he1 : expectChar '-' r0 with
    | none => rw [he1] at h; simp at h
    | some r1 =>
      rw [he1] at h
      rw [expectChar_extend '-' r0 (' ' :: m) r1 he1]
      simp only [Option.some_bind] at h ⊢
      cases hm : parseMonth r1 with
      | none => rw [hm] at h; simp at h
      | some mr =>
        obtain ⟨mv, r2⟩ := mr
        rw [hm] at h
        simp only [Option.some_bind] at h
        cases he2 : expectChar '-' r2 with
        | none => rw [he2] at h; simp at h
        | some r3 =>
          rw [he2] at h
          simp only [Option.some_bind] at h
          cases hd : parseDay r3 with
          | none => rw [hd] at h; simp at h
          | some dr =>
            obtain ⟨dv, rrest⟩ := dr
            rw [hd] at h
            simp only [Option.some_bind] at h
            by_cases hv : 1 ≤ yv ∧ dv ≤ daysInMonth yv mv
            · rw [if_pos hv] at h
              injection h with hp
              injection hp with hdt hrest
              subst hrest
              have h2eq : r2 = '-' :: r3 := expectChar_eq '-' r2 r3 he2
              subst h2eq
              rw [parseMonth_extend r1 (' ' :: m) mv '-' r3 hm]
              simp only [Option.some_bind]
              have hdash : (('-' : Char) == '-') = true := rfl
              simp only [expectChar, hdash, if_true, Option.some_bind]
              rw [parseDay_extend_space r3 m dv hd]
              simp only [Option.some_bind]
              rw [if_pos hv, hdt]
            · rw [if_neg hv] at h
              simp at h

/-- The combined strptime call of lines 171 and 175 on "date time" succeeds
with the already validated date exactly as the strict time parse of the
time part does. -/
lemma parseDateTime_split (sd ts : String) (d : Date)
    (h : parseDate sd = some d) :
    parseDateTime (sd ++ " " ++ ts) = (parseTime ts).map (fun t => (⟨d, t⟩ : DateTime)) := by
  have hdl : parseDateL sd.data = some (d, []) := by
    unfold parseDate at h
    cases hq : parseDateL sd.data with
    | none => rw [hq] at h; simp at h
    | some p =>
      obtain ⟨dt, rest⟩ := p
      rw [hq] at h
      cases rest with
      | nil =>
        injection h with h1
        rw [h1]
      | cons x xs => simp at h
  have hdata : (sd ++ " " ++ ts).data = sd.data ++ ' ' :: ts.data := by
    rw [strData_append, strData_append]
    show sd.data ++ " ".data ++ ts.data = _
    have : " ".data = [' '] := rfl
    rw [this, List.append_assoc]
    rfl
  unfold parseDateTime
  rw [hdata, parseDateL_extend_space sd.data ts.data d hdl]
  simp only [Option.some_bind]
  have hsp : ((' ' : Char) == ' ') = true := rfl
  simp only [expectChar, hsp, if_true, Option.some_bind]
  unfold parseTime
  cases ht : parseTimeL ts.data with
  | none => simp
  | some q =>
    obtain ⟨t, rest⟩ := q
    cases rest with
    | nil => simp
    | cons x xs => simp

namespace CalendarApp

/-- Reduction of bind on a successful step. -/
lemma ok_bind {α β : Type} (a : α) (f : α → Except BuildErr β) :
    (Except.ok a).bind f = f a := rfl

/-- Reduction of bind on a failed step. -/
lemma error_bind {α β : Type} (err : BuildErr) (f : α → Except BuildErr β) :
    (Except.error err : Except BuildErr α).bind f = .error err := rfl

/-- The checked successor can only return the plain successor. -/
lemma nextDayChecked_some (d nd : Date) (h : nextDayChecked d = some nd) :
    nd = nextDay d := by
  unfold nextDayChecked at h
  by_cases hc : (d.y == 9999 && d.m == 12 && d.d == 31) = true
  · rw [if_pos hc] at h
    exact absurd h (by simp)
  · rw [if_neg hc] at h
    injection h with h1
    exact h1.symm

/-- The resolution of the end-date variable of lines 164-168: the parsed
end_date when that field is truthy, the parsed start date otherwise. -/
def edResolved (e : CalendarEvent) (sd ed : Date) : Prop :=
  match truthyStr e.end_date with
  | some s => parseDate s = some ed
  | none => ed = sd

/-- The date whose successor becomes the all-day exclusive end marker. -/
def effEnd (e : CalendarEvent) : Option Date :=
  match truthyStr e.end_date with
  | some s => parseDate s
  | none => parseDate e.start_date

/-- Shape of any component the timed branch emits. -/
lemma timedBranch_ok (e : CalendarEvent) (st : String) (p : IcsEvent)
    (h : timedBranch e st = .ok p) :
    p.summary = e.name ∧ p.location = truthyStr e.location ∧ p.attendees = attendeesOf e ∧
    ∃ sdt, parseDateTime (e.start_date ++ " " ++ st) = some sdt ∧
      p.dtstart = .dateTimeVal sdt none ∧
      ((∃ et edt, truthyStr e.end_time = some et ∧
         parseDateTime (orDefault e.end_date e.start_date ++ " " ++ et) = some edt ∧
         p.dtend = .dateTimeVal edt none) ∨
       (truthyStr e.end_time = none ∧ ∃ edt, addOneHour sdt = some edt ∧
         p.dtend = .dateTimeVal edt none)) := by
  unfold timedBranch at h
  cases hc : parseDateTime (e.start_date ++ " " ++ st) with
  | none =>
    have hCE : parseDateTimeE (e.start_date ++ " " ++ st) = .error .dateFormatError := by
      unfold parseDateTimeE; rw [hc]
    rw [hCE, error_bind] at h
    exact absurd h (by simp)
  | some sdt =>
    have hCE : parseDateTimeE (e.start_date ++ " " ++ st) = .ok sdt := by
      unfold parseDateTimeE; rw [hc]
    rw [hCE, ok_bind] at h
    cases het : truthyStr e.end_time with
    | some et =>
      have hED : endDateTime e sdt =
          parseDateTimeE (orDefault e.end_date e.start_date ++ " " ++ et) := by
        unfold endDateTime; rw [het]
      rw [hED] at h
      cases hec : parseDateTime (orDefault e.end_date e.start_date ++ " " ++ et) with
      | none =>
        have hEE : parseDateTimeE (orDefault e.end_date e.start_date ++ " " ++ et) =
            .error .dateFormatError := by
          unfold parseDateTimeE; rw [hec]
        rw [hEE, error_bind] at h
        exact absurd h (by simp)
      | some edt =>
        have hEE : parseDateTimeE (orDefault e.end_date e.start_date ++ " " ++ et) =
            .ok edt := by
          unfold parseDateTimeE; rw [hec]
        rw [hEE, ok_bind] at h
        injection h with hp
        subst hp
        exact ⟨rfl, rfl, rfl, sdt, rfl, rfl, Or.inl ⟨et, edt, rfl, hec, rfl⟩⟩
    | none =>
      have hED : endDateTime e sdt =
          (match addOneHour sdt with
           | some edt => Except.ok edt
           | none => Except.error BuildErr.overflowError) := by
        unfold endDateTime; rw [het]
      rw [hED] at h
      cases hao : addOneHour sdt with
      | none =>
        rw [hao] at h
        have h2 : (Except.error BuildErr.overflowError : Except BuildErr IcsEvent) =
            .ok p := h
        exact absurd h2 (by simp)
      | some edt =>
        rw [hao] at h
        have h2 : (Except.ok ⟨e.name, .dateTimeVal sdt none, .dateTimeVal edt none,
            truthyStr e.location, attendeesOf e⟩ : Except BuildErr IcsEvent) = .ok p := h
        injection h2 with hp
        subst hp
        exact ⟨rfl, rfl, rfl, sdt, rfl, rfl, Or.inr ⟨rfl, edt, hao, rfl⟩⟩

/-- Shape of any component the all-day branch emits. -/
lemma alldayBranch_ok (e : CalendarEvent) (sd ed : Date) (p : IcsEvent)
    (h : alldayBranch e sd ed = .ok p) :
    p.summary = e.name ∧ p.location = truthyStr e.location ∧ p.attendees = attendeesOf e ∧
    nextDayChecked ed = some (nextDay ed) ∧
    p.dtstart = .dateVal sd ∧ p.dtend = .dateVal (nextDay ed) := by
  unfold alldayBranch at h
  cases hnd : nextDayChecked ed with
  | none => rw [hnd] at h; exact absurd h (by simp)
  | some nd =>
    rw [hnd] at h
    injection h with hp
    subst hp
    have hnd2 : nd = nextDay ed := nextDayChecked_some ed nd hnd
    subst hnd2
    exact ⟨rfl, rfl, rfl, rfl, rfl, rfl⟩

/-- Shape of any component create_ics emits, together with the facts that
both date fields parsed successfully. -/
lemma create_ics_ok (e : CalendarEvent) (p : IcsEvent) (h : create_ics e = .ok p) :
    p.summary = e.name ∧ p.location = truthyStr e.location ∧ p.attendees = attendeesOf e ∧
    ∃ sd ed, parseDate e.start_date = some sd ∧ edResolved e sd ed ∧
      ((truthyStr e.start_time = none ∧ nextDayChecked ed = some (nextDay ed) ∧
        p.dtstart = .dateVal sd ∧ p.dtend = .dateVal (nextDay ed)) ∨
       (∃ st sdt, truthyStr e.start_time = some st ∧
         parseDateTime (e.start_date ++ " " ++ st) = some sdt ∧
         p.dtstart = .dateTimeVal sdt none ∧
         ((∃ et edt, truthyStr e.end_time = some et ∧
            parseDateTime (orDefault e.end_date e.start_date ++ " " ++ et) = some edt ∧
            p.dtend = .dateTimeVal edt none) ∨
          (truthyStr e.end_time = none ∧ ∃ edt, addOneHour sdt = some edt ∧
            p.dtend = .dateTimeVal edt none)))) := by
  unfold create_ics at h
  cases hsd : parseDate e.start_date with
  | none =>
    have hE : parseDateE e.start_date = .error .dateFormatError := by
      unfold parseDateE; rw [hsd]
    rw [hE, error_bind] at h
    exact absurd h (by simp)
  | some sd =>
    have hE : parseDateE e.start_date = .ok sd := by
      unfold parseDateE; rw [hsd]
    rw [hE, ok_bind] at h
    have hbody : ∃ ed, edResolved e sd ed ∧ buildBody e sd ed = .ok p := by
      cases hed : truthyStr e.end_date with
      | some s =>
        cases hps : parseDate s with
        | none =>
          have hPE : parseEndDate e sd = .error .dateFormatError := by
            unfold parseEndDate
            rw [hed]
            show parseDateE s = _
            unfold parseDateE
            rw [hps]
          rw [hPE, error_bind] at h
          exact absurd h (by simp)
        | some ed =>
          have hPE : parseEndDate e sd = .ok ed := by
            unfold parseEndDate
            rw [hed]
            show parseDateE s = _
            unfold parseDateE
            rw [hps]
          rw [hPE, ok_bind] at h
          refine ⟨ed, ?_, h⟩
          unfold edResolved
          rw [hed]
          exact hps
      | none =>
        have hPE : parseEndDate e sd = .ok sd := by
          unfold parseEndDate
          rw [hed]
        rw [hPE, ok_bind] at h
        refine ⟨sd, ?_, h⟩
        unfold edResolved
        rw [hed]
    obtain ⟨ed, hres, hb⟩ := hbody
    unfold buildBody at hb
    cases hst : truthyStr e.start_time with
    | none =>
      rw [hst] at hb
      have hb2 : alldayBranch e sd ed = .ok p := hb
      obtain ⟨h1, h2, h3, h4, h5, h6⟩ := alldayBranch_ok e sd ed p hb2
      exact ⟨h1, h2, h3, sd, ed, rfl, hres, Or.inl ⟨rfl, h4, h5, h6⟩⟩
    | some st =>
      rw [hst] at hb
      have hb2 : timedBranch e st = .ok p := hb
      obtain ⟨h1, h2, h3, sdt, h4, h5, h6⟩ := timedBranch_ok e st p hb2
      exact ⟨h1, h2, h3, sd, ed, rfl, hres, Or.inr ⟨st, sdt, rfl, h4, h5, h6⟩⟩

end CalendarApp

namespace CalendarApp

/-- The exact failure condition of the builder data transformation: one of
the date or time strings that the taken branch actually parses is
malformed, or the computed end marker would pass the maximum representable
date. Time strings the branch ignores are never validated. -/
def failCond (e : CalendarEvent) : Prop :=
  parseDate e.start_date = none
  ∨ (∃ s, truthyStr e.end_date = some s ∧ parseDate s = none)
  ∨ (∃ s, truthyStr e.start_time = some s ∧ parseTime s = none)
  ∨ (∃ s t, truthyStr e.start_time = some s ∧ truthyStr e.end_time = some t ∧
      parseTime t = none)
  ∨ (truthyStr e.start_time = none ∧ ∃ ed, effEnd e = some ed ∧ nextDayChecked ed = none)
  ∨ (∃ s sdt, truthyStr e.start_time = some s ∧ truthyStr e.end_time = none ∧
      parseDateTime (e.start_date ++ " " ++ s) = some sdt ∧ addOneHour sdt = none)

/-- A resolved end date relates to the effective end-date computation. -/
lemma edResolved_effEnd (e : CalendarEvent) (sd ed : Date)
    (hsd : parseDate e.start_date = some sd) (h : edResolved e sd ed) :
    effEnd e = some ed := by
  unfold edResolved at h
  unfold effEnd
  cases hed : truthyStr e.end_date with
  | some s =>
    rw [hed] at h
    exact h
  | none =>
    rw [hed] at h
    show parseDate e.start_date = some ed
    rw [h]
    exact hsd

/-- The string whose combined end parse line 175 attempts always parses as
a date on any path that reaches that line. -/
lemma orDefault_parses (e : CalendarEvent) (sd ed : Date)
    (hsd : parseDate e.start_date = some sd) (hres : edResolved e sd ed) :
    ∃ d0, parseDate (orDefault e.end_date e.start_date) = some d0 := by
  unfold edResolved at hres
  unfold orDefault
  cases hed : truthyStr e.end_date with
  | some s =>
    rw [hed] at hres
    exact ⟨ed, hres⟩
  | none =>
    exact ⟨sd, hsd⟩

/-- Every failure of the builder satisfies the failure condition, and every
raised error is the strptime ValueError or the date-arithmetic
OverflowError. -/
lemma buildBody_error (e : CalendarEvent) (sd ed : Date) (err : BuildErr)
    (hsd : parseDate e.start_date = some sd) (hres : edResolved e sd ed)
    (h : buildBody e sd ed = .error err) :
    failCond e ∧ (err = .dateFormatError ∨ err = .overflowError) := by
  unfold buildBody at h
  cases hst : truthyStr e.start_time with
  | none =>
    rw [hst] at h
    have h2 : alldayBranch e sd ed = .error err := h
    unfold alldayBranch at h2
    cases hnd : nextDayChecked ed with
    | some nd => rw [hnd] at h2; exact absurd h2 (by simp)
    | none =>
      rw [hnd] at h2
      injection h2 with h1
      exact ⟨Or.inr (Or.inr (Or.inr (Or.inr (Or.inl
        ⟨hst, ed, edResolved_effEnd e sd ed hsd hres, hnd⟩)))), Or.inr h1.symm⟩
  | some st =>
    rw [hst] at h
    have h2 : timedBranch e st = .error err := h
    unfold timedBranch at h2
    cases hc : parseDateTime (e.start_date ++ " " ++ st) with
    | none =>
      have hCE : parseDateTimeE (e.start_date ++ " " ++ st) = .error .dateFormatError := by
        unfold parseDateTimeE; rw [hc]
      rw [hCE, error_bind] at h2
      injection h2 with h1
      have hsplit := parseDateTime_split e.start_date st sd hsd
      rw [hc] at hsplit
      have hpt : parseTime st = none := Option.map_eq_none'.mp hsplit.symm
      exact ⟨Or.inr (Or.inr (Or.inl ⟨st, hst, hpt⟩)), Or.inl h1.symm⟩
    | some sdt =>
      have hCE : parseDateTimeE (e.start_date ++ " " ++ st) = .ok sdt := by
        unfold parseDateTimeE; rw [hc]
      rw [hCE, ok_bind] at h2
      cases het : truthyStr e.end_time with
      | some et =>
        have hED : endDateTime e sdt =
            parseDateTimeE (orDefault e.end_date e.start_date ++ " " ++ et) := by
          unfold endDateTime; rw [het]
        rw [hED] at h2
        cases hec : parseDateTime (orDefault e.end_date e.start_date ++ " " ++ et) with
        | none =>
          have hEE : parseDateTimeE (orDefault e.end_date e.start_date ++ " " ++ et) =
              .error .dateFormatError := by
            unfold parseDateTimeE; rw [hec]
          rw [hEE, error_bind] at h2
          injection h2 with h1
          obtain ⟨d0, hd0⟩ := orDefault_parses e sd ed hsd hres
          have hsplit := parseDateTime_split (orDefault e.end_date e.start_date) et d0 hd0
          rw [hec] at hsplit
          have hpt : parseTime et = none := Option.map_eq_none'.mp hsplit.symm
          exact ⟨Or.inr (Or.inr (Or.inr (Or.inl ⟨st, et, hst, het, hpt⟩))), Or.inl h1.symm⟩
        | some edt =>
          have hEE : parseDateTimeE (orDefault e.end_date e.start_date ++ " " ++ et) =
              .ok edt := by
            unfold parseDateTimeE; rw [hec]
          rw [hEE, ok_bind] at h2
          exact absurd h2 (by simp)
      | none =>
        have hED : endDateTime e sdt =
            (match addOneHour sdt with
             | some edt => Except.ok edt
             | none => Except.error BuildErr.overflowError) := by
          unfold endDateTime; rw [het]
        rw [hED] at h2
        cases hao : addOneHour sdt with
        | some edt =>
          rw [hao] at h2
          have h3 : (Except.ok ⟨e.name, .dateTimeVal sdt none, .dateTimeVal edt none,
              truthyStr e.location, attendeesOf e⟩ : Except BuildErr IcsEvent) =
              .error err := h2
          exact absurd h3 (by simp)
        | none =>
          rw [hao] at h2
          have h3 : (Except.error BuildErr.overflowError : Except BuildErr IcsEvent) =
              .error err := h2
          injection h3 with h1
          exact ⟨Or.inr (Or.inr (Or.inr (Or.inr (Or.inr
            ⟨st, sdt, hst, het, hc, hao⟩)))), Or.inr h1.symm⟩

/-- Every failure of create_ics satisfies the failure condition, and every
raised error is DateFormatError or OverflowError. -/
lemma create_ics_error_full (e : CalendarEvent) (err : BuildErr)
    (h : create_ics e = .error err) :
    failCond e ∧ (err = .dateFormatError ∨ err = .overflowError) := by
  unfold create_ics at h
  cases hsd : parseDate e.start_date with
  | none =>
    have hE : parseDateE e.start_date = .error .dateFormatError := by
      unfold parseDateE; rw [hsd]
    rw [hE, error_bind] at h
    injection h with h1
    exact ⟨Or.inl hsd, Or.inl h1.symm⟩
  | some sd =>
    have hE : parseDateE e.start_date = .ok sd := by
      unfold parseDateE; rw [hsd]
    rw [hE, ok_bind] at h
    cases hed : truthyStr e.end_date with
    | some s =>
      cases hps : parseDate s with
      | none =>
        have hPE : parseEndDate e sd = .error .dateFormatError := by
          unfold parseEndDate
          rw [hed]
          show parseDateE s = _
          unfold parseDateE
          rw [hps]
        rw [hPE, error_bind] at h
        injection h with h1
        exact ⟨Or.inr (Or.inl ⟨s, hed, hps⟩), Or.inl h1.symm⟩
      | some ed =>
        have hPE : parseEndDate e sd = .ok ed := by
          unfold parseEndDate
          rw [hed]
          show parseDateE s = _
          unfold parseDateE
          rw [hps]
        rw [hPE, ok_bind] at h
        refine buildBody_error e sd ed err hsd ?_ h
        unfold edResolved
        rw [hed]
        exact hps
    | none =>
      have hPE : parseEndDate e sd = .ok sd := by
        unfold parseEndDate
        rw [hed]
      rw [hPE, ok_bind] at h
      refine buildBody_error e sd sd err hsd ?_ h
      unfold edResolved
      rw [hed]

/-- The builder fails exactly on the failure condition. -/
lemma create_ics_error_iff (e : CalendarEvent) :
    (∃ err, create_ics e = .error err) ↔ failCond e := by
  constructor
  · rintro ⟨err, herr⟩
    exact (create_ics_error_full e err herr).1
  · intro hf
    cases hval : create_ics e with
    | error err => exact ⟨err, rfl⟩
    | ok p =>
      exfalso
      obtain ⟨h1, h2, h3, sd, ed, hsd, hres, hbr⟩ := create_ics_ok e p hval
      unfold failCond at hf
      rcases hf with hf | hf | hf | hf | hf | hf
      · rw [hsd] at hf
        exact absurd hf (by simp)
      · obtain ⟨s, hs1, hs2⟩ := hf
        unfold edResolved at hres
        rw [hs1] at hres
        have hres2 : parseDate s = some ed := hres
        rw [hs2] at hres2
        exact absurd hres2 (by simp)
      · obtain ⟨s, hs1, hs2⟩ := hf
        rcases hbr with ⟨hnone, _⟩ | ⟨st, sdt, hst, hcomb, _⟩
        · rw [hnone] at hs1
          exact absurd hs1 (by simp)
        · have hss := hst.symm.trans hs1
          injection hss with hss
          subst hss
          have hsplit := parseDateTime_split e.start_date st sd hsd
          rw [hcomb, hs2] at hsplit
          exact absurd hsplit (by simp)
      · obtain ⟨s, t, hs1, ht1, ht2⟩ := hf
        rcases hbr with ⟨hnone, _⟩ | ⟨st, sdt, hst, hcomb, hdts, hinner⟩
        · rw [hnone] at hs1
          exact absurd hs1 (by simp)
        · rcases hinner with ⟨et, edt, het, heco, _⟩ | ⟨hetn, _⟩
          · have htt := het.symm.trans ht1
            injection htt with htt
            subst htt
            obtain ⟨d0, hd0⟩ := orDefault_parses e sd ed hsd hres
            have hsplit := parseDateTime_split (orDefault e.end_date e.start_date) et d0 hd0
            rw [heco, ht2] at hsplit
            exact absurd hsplit (by simp)
          · rw [hetn] at ht1
            exact absurd ht1 (by simp)
      · obtain ⟨hstn, ed', hee, hnd'⟩ := hf
        rcases hbr with ⟨hnone, hndok, _⟩ | ⟨st, sdt, hst, _⟩
        · have heq : effEnd e = some ed := edResolved_effEnd e sd ed hsd hres
          have hee2 := hee.symm.trans heq
          injection hee2 with hee2
          subst hee2
          rw [hnd'] at hndok
          exact absurd hndok (by simp)
        · rw [hstn] at hst
          exact absurd hst (by simp)
      · obtain ⟨s, sdt', hs1, hetn, hcomb', hao'⟩ := hf
        rcases hbr with ⟨hnone, _⟩ | ⟨st, sdt, hst, hcomb, hdts, hinner⟩
        · rw [hnone] at hs1
          exact absurd hs1 (by simp)
        · have hss := hst.symm.trans hs1
          injection hss with hss
          subst hss
          have hsdt := hcomb.symm.trans hcomb'
          injection hsdt with hsdt
          subst hsdt
          rcases hinner with ⟨et, edt, het, _, _⟩ | ⟨hetn2, edt, hao, _⟩
          · rw [hetn] at het
            exact absurd het (by simp)
          · rw [hao'] at hao
            exact absurd hao (by simp)

end CalendarApp


namespace CalendarApp

/-- Unfolding equation for jlookup on a nonempty dictionary. -/
lemma jlookup_cons (pk : String) (pv : Json) (rest : List (String × Json)) (k : String) :
    jlookup ((pk, pv) :: rest) k = if pk = k then some pv else jlookup rest k := rfl

/-- Looking up the key that setKey wrote yields the written value. -/
lemma jlookup_setKey_self (kvs : List (String × Json)) (key : String) (v : Json) :
    jlookup (setKey kvs key v) key = some v := by
  unfold setKey
  by_cases h : (jlookup kvs key).isSome = true
  · rw [if_pos h]
    revert h
    induction kvs with
    | nil => intro h; simp [jlookup] at h
    | cons p rest ih =>
      intro h
      obtain ⟨pk, pv⟩ := p
      rw [jlookup_cons] at h
      simp only [List.map_cons]
      by_cases hpk : pk = key
      · rw [if_pos hpk, jlookup_cons, if_pos hpk]
      · rw [if_neg hpk] at h
        rw [if_neg hpk, jlookup_cons, if_neg hpk]
        exact ih h
  · rw [if_neg h]
    revert h
    induction kvs with
    | nil =>
      intro h
      rw [List.nil_append, jlookup_cons, if_pos rfl]
    | cons p rest ih =>
      intro h
      obtain ⟨pk, pv⟩ := p
      rw [jlookup_cons] at h
      rw [List.cons_append, jlookup_cons]
      by_cases hpk : pk = key
      · rw [if_pos hpk] at h
        simp at h
      · rw [if_neg hpk] at h
        rw [if_neg hpk]
        exact ih h

/-- setKey leaves every other key unchanged. -/
lemma jlookup_setKey_other (kvs : List (String × Json)) (key : String) (v : Json)
    (k : String) (hk : k ≠ key) :
    jlookup (setKey kvs key v) k = jlookup kvs k := by
  have hk2 : ¬ key = k := fun hh => hk hh.symm
  unfold setKey
  by_cases h : (jlookup kvs key).isSome = true
  · rw [if_pos h]
    clear h
    induction kvs with
    | nil => rfl
    | cons p rest ih =>
      obtain ⟨pk, pv⟩ := p
      simp only [List.map_cons]
      by_cases hpk : pk = key
      · have hpkk : ¬ pk = k := fun hh => hk (by rw [← hh, hpk])
        rw [if_pos hpk, jlookup_cons, jlookup_cons, if_neg hpkk, if_neg hpkk]
        exact ih
      · rw [if_neg hpk, jlookup_cons, jlookup_cons]
        by_cases hpkk : pk = k
        · rw [if_pos hpkk, if_pos hpkk]
        · rw [if_neg hpkk, if_neg hpkk]
          exact ih
  · rw [if_neg h]
    clear h
    induction kvs with
    | nil =>
      rw [List.nil_append, jlookup_cons, if_neg hk2]
    | cons p rest ih =>
      obtain ⟨pk, pv⟩ := p
      rw [List.cons_append, jlookup_cons, jlookup_cons]
      by_cases hpkk : pk = k
      · rw [if_pos hpkk, if_pos hpkk]
      · rw [if_neg hpkk, if_neg hpkk]
        exact ih

/-- needsDefault only inspects the lookup of its key. -/
lemma needsDefault_congr (kvs1 kvs2 : List (String × Json)) (key : String)
    (h : jlookup kvs1 key = jlookup kvs2 key) :
    needsDefault kvs1 key = needsDefault kvs2 key := by
  unfold needsDefault
  rw [h]

/-- The start_date substitution does not touch the name key. -/
lemma applyStart_name (cur : String) (kvs : List (String × Json)) :
    jlookup (applyStartDefault cur kvs) "name" = jlookup kvs "name" := by
  unfold applyStartDefault
  by_cases h : needsDefault kvs "start_date" = true
  · rw [if_pos h]
    exact jlookup_setKey_other kvs "start_date" (.str cur) "name" (by decide)
  · rw [if_neg h]

/-- The name substitution does not touch the start_date key. -/
lemma applyName_start (kvs : List (String × Json)) :
    jlookup (applyNameDefault kvs) "start_date" = jlookup kvs "start_date" := by
  unfold applyNameDefault
  by_cases h : needsDefault kvs "name" = true
  · rw [if_pos h]
    exact jlookup_setKey_other kvs "name" (.str "Untitled Event") "start_date" (by decide)
  · rw [if_neg h]

/-- A missing or empty value triggers the corresponding default. -/
lemma missingOrEmpty_needsDefault (kvs : List (String × Json)) (key : String)
    (h : jlookup kvs key = none ∨ jlookup kvs key = some (.str "")) :
    needsDefault kvs key = true := by
  unfold needsDefault
  rcases h with h | h
  · rw [h]
  · rw [h]
    rfl

/-- After the defaults, a record whose name was missing or falsy carries the
placeholder. -/
lemma withDefaults_name (cur : String) (kvs : List (String × Json))
    (h : needsDefault kvs "name" = true) :
    jlookup (withDefaults cur kvs) "name" = some (.str "Untitled Event") := by
  unfold withDefaults
  rw [applyStart_name]
  unfold applyNameDefault
  rw [if_pos h]
  exact jlookup_setKey_self kvs "name" (.str "Untitled Event")

/-- After the defaults, a record whose start_date was missing or falsy
carries the reference date. -/
lemma withDefaults_start (cur : String) (kvs : List (String × Json))
    (h : needsDefault kvs "start_date" = true) :
    jlookup (withDefaults cur kvs) "start_date" = some (.str cur) := by
  unfold withDefaults
  unfold applyStartDefault
  have h2 : needsDefault (applyNameDefault kvs) "start_date" = true := by
    rw [needsDefault_congr (applyNameDefault kvs) kvs "start_date" (applyName_start kvs)]
    exact h
  rw [if_pos h2]
  exact jlookup_setKey_self (applyNameDefault kvs) "start_date" (.str cur)

/-- A successfully coerced record takes its name and start_date from the
corresponding keys through the str validator. -/
lemma parse_obj_fields (kvs : List (String × Json)) (ev : CalendarEvent)
    (h : parse_obj kvs = some ev) :
    (jlookup kvs "name").bind toStrJ = some ev.name ∧
    (jlookup kvs "start_date").bind toStrJ = some ev.start_date := by
  unfold parse_obj at h
  simp only [Option.bind_eq_some, Option.some.injEq] at h
  obtain ⟨nm, hnm, sd, hsd, ed, hed, st, hst, et, het, tz, htz, parts, hparts,
    loc, hloc, cont, hcont, heq⟩ := h
  subst heq
  obtain ⟨a, ha1, ha2⟩ := hnm
  obtain ⟨b, hb1, hb2⟩ := hsd
  constructor
  · rw [ha1]
    exact ha2
  · rw [hb1]
    exact hb2

end CalendarApp

namespace CalendarApp

/-- A JSON object, as opposed to any other JSON value. -/
def isObjJ : Json → Bool
  | .obj _ => true
  | _ => false

/-- The record one loop iteration yields, when it yields one. -/
def elemRecord (cur : String) (j : Json) : Option CalendarEvent :=
  match processElem cur j with
  | .ok ev => some ev
  | _ => none

/-- Over a list of JSON objects, the coercion loop never raises: failed
coercions are skipped and the validated records are returned in order. -/
lemma coerceLoop_all_obj (cur : String) (l : List Json)
    (h : ∀ j ∈ l, isObjJ j = true) :
    coerceLoop cur l = .ok (l.filterMap (elemRecord cur)) := by
  induction l with
  | nil => rfl
  | cons j rest ih =>
    have hj : isObjJ j = true := h j (List.mem_cons_self j rest)
    have hrest : ∀ x ∈ rest, isObjJ x = true := fun x hx => h x (List.mem_cons_of_mem j hx)
    cases j with
    | obj kvs =>
      unfold coerceLoop
      cases hp : parse_obj (withDefaults cur kvs) with
      | some ev =>
        have hpe : processElem cur (.obj kvs) = .ok ev := by
          show (match parse_obj (withDefaults cur kvs) with
                | some ev => ElemResult.ok ev
                | none => ElemResult.skip) = ElemResult.ok ev
          rw [hp]
        have hre : elemRecord cur (.obj kvs) = some ev := by
          unfold elemRecord; rw [hpe]
        rw [hpe, ih hrest]
        simp [List.filterMap_cons, hre, Except.map]
      | none =>
        have hpe : processElem cur (.obj kvs) = .skip := by
          show (match parse_obj (withDefaults cur kvs) with
                | some ev => ElemResult.ok ev
                | none => ElemResult.skip) = ElemResult.skip
          rw [hp]
        have hre : elemRecord cur (.obj kvs) = none := by
          unfold elemRecord; rw [hpe]
        rw [hpe, ih hrest]
        simp [List.filterMap_cons, hre]
    | null => simp [isObjJ] at hj
    | bool b => simp [isObjJ] at hj
    | num n => simp [isObjJ] at hj
    | str s => simp [isObjJ] at hj
    | arr l2 => simp [isObjJ] at hj

/-- The coercion loop can only raise the TypeError of a non-dict candidate. -/
lemma coerceLoop_error (cur : String) (l : List Json) :
    ∀ err, coerceLoop cur l = .error err → err = .typeError := by
  induction l with
  | nil =>
    intro err h
    exact absurd h (by simp [coerceLoop])
  | cons j rest ih =>
    intro err h
    unfold coerceLoop at h
    cases hpe : processElem cur j with
    | ok ev =>
      rw [hpe] at h
      cases hcl : coerceLoop cur rest with
      | ok l2 =>
        rw [hcl] at h
        exact absurd h (by simp [Except.map])
      | error e2 =>
        rw [hcl] at h
        have h2 : (Except.error e2 : Except ExtractErr (List CalendarEvent)) = .error err := h
        injection h2 with h3
        rw [← h3]
        exact ih e2 hcl
    | skip =>
      rw [hpe] at h
      exact ih err h
    | tyErr =>
      rw [hpe] at h
      injection h with h2
      exact h2.symm

/-- The validation stage can only raise TypeError, never the two
ExtractionFormatError ValueErrors. -/
lemma validateEvents_error (cur : String) (j : Json) (err : ExtractErr)
    (h : validateEvents cur j = .error err) : err = .typeError := by
  cases j with
  | arr l => exact coerceLoop_error cur l err h
  | str s => exact coerceLoop_error cur _ err h
  | obj kvs => exact coerceLoop_error cur _ err h
  | null => injection h with h2; exact h2.symm
  | bool b => injection h with h2; exact h2.symm
  | num n => injection h with h2; exact h2.symm

/-- Batch processing distributes over concatenation: each description line
is handled independently. -/
lemma generate_ics_append (cur : String) (l1 l2 : List (String × Option Json)) :
    generate_ics cur (l1 ++ l2) = generate_ics cur l1 ++ generate_ics cur l2 := by
  induction l1 with
  | nil => rfl
  | cons p rest ih =>
    obtain ⟨d, r⟩ := p
    show processDescription cur d r ++ generate_ics cur (rest ++ l2) =
      (processDescription cur d r ++ generate_ics cur rest) ++ generate_ics cur l2
    rw [ih, List.append_assoc]

/-- The records built from one description are exactly the records before
the first builder failure, in order. -/
lemma buildRecords_takeWhile (evs : List CalendarEvent) :
    buildRecords evs =
      (evs.takeWhile (fun e => (create_ics e).isOk)).filterMap
        (fun e => (create_ics e).toOption) := by
  induction evs with
  | nil => rfl
  | cons e rest ih =>
    cases hce : create_ics e with
    | ok p =>
      have hb : buildRecords (e :: rest) = p :: buildRecords rest := by
        show (match create_ics e with
              | Except.ok q => q :: buildRecords rest
              | Except.error _ => []) = _
        rw [hce]
      rw [hb, ih]
      simp [List.takeWhile_cons, hce, Except.isOk, Except.toBool, Except.toOption,
        List.filterMap_cons]
    | error err =>
      have hb : buildRecords (e :: rest) = [] := by
        show (match create_ics e with
              | Except.ok q => q :: buildRecords rest
              | Except.error _ => []) = _
        rw [hce]
      rw [hb]
      simp [List.takeWhile_cons, hce, Except.isOk, Except.toBool]

end CalendarApp

namespace Test

/-- Any timed component the Test builder emits annotates both timestamps
with exactly the truthy timezone of the record. -/
lemma timedEvent_tz (zdb : String → Bool) (e : CalendarEvent) (d : Date) (t : Time)
    (p : IcsEvent) (h : timedEvent zdb e d t = .ok p) :
    CalendarApp.tzOf p.dtstart = truthyStr e.timezone ∧
    CalendarApp.tzOf p.dtend = truthyStr e.timezone := by
  unfold timedEvent at h
  cases he : endTimeOrHour e d t with
  | error err =>
    rw [he] at h
    exact absurd h (by simp [Except.bind])
  | ok edt =>
    rw [he] at h
    cases htz : truthyStr e.timezone with
    | some tz =>
      have hz : zoneAnnot zdb e = if zdb tz then .ok (some tz) else .error .zoneNotFound := by
        unfold zoneAnnot; rw [htz]
      rw [hz] at h
      by_cases hzdb : zdb tz = true
      · rw [if_pos hzdb] at h
        have h2 : (Except.ok (⟨e.name, .dateTimeVal ⟨d, t⟩ (some tz),
            .dateTimeVal edt (some tz), truthyListOpt e.participants,
            truthyStr e.location⟩ : IcsEvent) : Except CalendarApp.BuildErr IcsEvent) =
            .ok p := h
        injection h2 with h3
        subst h3
        exact ⟨rfl, rfl⟩
      · rw [if_neg hzdb] at h
        exact absurd h (by simp [Except.bind])
    | none =>
      have hz : zoneAnnot zdb e = .ok none := by
        unfold zoneAnnot; rw [htz]
      rw [hz] at h
      have h2 : (Except.ok (⟨e.name, .dateTimeVal ⟨d, t⟩ none,
          .dateTimeVal edt none, truthyListOpt e.participants,
          truthyStr e.location⟩ : IcsEvent) : Except CalendarApp.BuildErr IcsEvent) =
          .ok p := h
      injection h2 with h3
      subst h3
      exact ⟨rfl, rfl⟩

/-- A timed run of the Test builder reduces to the timed component builder. -/
lemma create_ics_file_timed (zdb : String → Bool) (dir : String) (e : CalendarEvent)
    (p : IcsEvent) (f : String) (st : String)
    (h : create_ics_file zdb dir e = .ok (p, f))
    (hst : truthyStr e.start_time = some st) :
    ∃ d t, parseDate e.date = some d ∧ parseTime st = some t ∧
      timedEvent zdb e d t = .ok p := by
  unfold create_ics_file at h
  cases hd : parseDate e.date with
  | none =>
    rw [hd] at h
    exact absurd h (by simp)
  | some d =>
    rw [hd, hst] at h
    have h2 : (match parseTime st with
               | none => Except.error CalendarApp.BuildErr.dateFormatError
               | some t => (timedEvent zdb e d t).map
                   (fun q => (q, create_filename dir e))) = .ok (p, f) := h
    cases ht : parseTime st with
    | none =>
      rw [ht] at h2
      exact absurd h2 (by simp)
    | some t =>
      rw [ht] at h2
      have h3 : (timedEvent zdb e d t).map (fun q => (q, create_filename dir e)) =
          .ok (p, f) := h2
      cases hte : timedEvent zdb e d t with
      | error err =>
        rw [hte] at h3
        exact absurd h3 (by simp [Except.map])
      | ok q =>
        rw [hte] at h3
        have h4 : (Except.ok (q, create_filename dir e) :
            Except CalendarApp.BuildErr (IcsEvent × String)) = .ok (p, f) := h3
        injection h4 with h5
        injection h5 with h6 h7
        subst h6
        exact ⟨d, t, rfl, rfl, hte⟩

end Test

namespace CalendarApp

/-- A JSON value that json.loads can produce at top level but that is
neither a list nor an object. -/
def isScalarJ : Json → Bool
  | .arr _ => false
  | .obj _ => false
  | _ => true

end CalendarApp

/-- All-day record whose end_time is present but malformed: line 174 never
parses end_time when start_time is falsy. -/
def exBadEnd : CalendarApp.CalendarEvent :=
  { name := "Dinner", start_date := "2024-10-31", end_time := some "nonsense" }

/-- Well-formed all-day record at the last representable date. -/
def exOverflow : CalendarApp.CalendarEvent :=
  { name := "Party", start_date := "9999-12-31" }

/-- Record whose start_date uses day-month-year order. -/
def exBadStart : CalendarApp.CalendarEvent :=
  { name := "Bad", start_date := "31-10-2024" }

/-- Timed record carrying a timezone. -/
def exTz : CalendarApp.CalendarEvent :=
  { name := "Standup", start_date := "2024-10-31", start_time := some "09:00",
    timezone := some "America/New_York" }

/-- Component the CalendarApp builder emits for exTz: both timestamps are
zone-naive although the record carries a timezone. -/
def exTzIcs : CalendarApp.IcsEvent :=
  ⟨"Standup", .dateTimeVal ⟨⟨2024, 10, 31⟩, ⟨9, 0⟩⟩ none,
   .dateTimeVal ⟨⟨2024, 10, 31⟩, ⟨10, 0⟩⟩ none, none, []⟩

/-- All-day record of the specification example. -/
def exHalloween : CalendarApp.CalendarEvent :=
  { name := "Halloween", start_date := "2024-10-31" }

/-- Component the builder emits for exHalloween. -/
def exHalloweenIcs : CalendarApp.IcsEvent :=
  ⟨"Halloween", .dateVal ⟨2024, 10, 31⟩, .dateVal ⟨2024, 11, 1⟩, none, []⟩

/-- Timed record with no end_time. -/
def exTimed : CalendarApp.CalendarEvent :=
  { name := "Standup", start_date := "2024-10-31", start_time := some "09:00" }

/-- Component the builder emits for exTimed: end is one hour after start. -/
def exTimedIcs : CalendarApp.IcsEvent :=
  ⟨"Standup", .dateTimeVal ⟨⟨2024, 10, 31⟩, ⟨9, 0⟩⟩ none,
   .dateTimeVal ⟨⟨2024, 10, 31⟩, ⟨10, 0⟩⟩ none, none, []⟩

/-- Record with a location and two participants. -/
def exRoom : CalendarApp.CalendarEvent :=
  { name := "Review", start_date := "2024-10-31", location := some "Room 5",
    participants := some ["a@example.com", "b@example.com"] }

/-- Component the builder emits for exRoom. -/
def exRoomIcs : CalendarApp.IcsEvent :=
  ⟨"Review", .dateVal ⟨2024, 10, 31⟩, .dateVal ⟨2024, 11, 1⟩, some "Room 5",
   ["MAILTO:a@example.com", "MAILTO:b@example.com"]⟩

/-- Candidate event objects of an upstream response. -/
def objA : Json := .obj [("name", .str "A"), ("start_date", .str "2024-10-31")]

/-- Candidate whose start_date is in the wrong order: it still coerces (it
is a string), and only the builder rejects it later. -/
def objB : Json := .obj [("name", .str "B"), ("start_date", .str "31-10-2024")]

/-- Third candidate of the batch counterexample. -/
def objC : Json := .obj [("name", .str "C"), ("start_date", .str "2024-11-08")]

/-- Candidate whose participants field has the wrong type, so coercion
fails and the object is skipped. -/
def objBadParts : Json :=
  .obj [("name", .str "P"), ("start_date", .str "2024-10-31"),
        ("participants", .str "x")]

/-- The records the three candidates coerce to. -/
def evA : CalendarApp.CalendarEvent := { name := "A", start_date := "2024-10-31" }

/-- Record coerced from objB. -/
def evB : CalendarApp.CalendarEvent := { name := "B", start_date := "31-10-2024" }

/-- Record coerced from objC. -/
def evC : CalendarApp.CalendarEvent := { name := "C", start_date := "2024-11-08" }

/-- Components built from evA and evC. -/
def icsA : CalendarApp.IcsEvent :=
  ⟨"A", .dateVal ⟨2024, 10, 31⟩, .dateVal ⟨2024, 11, 1⟩, none, []⟩

/-- Component built from evC. -/
def icsC : CalendarApp.IcsEvent :=
  ⟨"C", .dateVal ⟨2024, 11, 8⟩, .dateVal ⟨2024, 11, 9⟩, none, []⟩

/-- Upstream response containing the three candidates in order. -/
def respABC : Json := .arr [objA, objB, objC]

/-- Zone database knowing one key. -/
def nyZdb : String → Bool := fun z => z == "America/New_York"

/-- Timed Test.py record carrying a known timezone. -/
def exTestTz : Test.CalendarEvent :=
  { name := "Standup", date := "2024-10-31", start_time := some "09:00",
    timezone := some "America/New_York" }

/-- Component the Test builder emits for exTestTz. -/
def exTestTzIcs : Test.IcsEvent :=
  ⟨"Standup", .dateTimeVal ⟨⟨2024, 10, 31⟩, ⟨9, 0⟩⟩ (some "America/New_York"),
   .dateTimeVal ⟨⟨2024, 10, 31⟩, ⟨10, 0⟩⟩ (some "America/New_York"), none, none⟩

/-- Two distinct Test.py records sharing name and date. -/
def exColl1 : Test.CalendarEvent :=
  { name := "Team Sync", date := "2024-10-31", location := some "Room A" }

/-- Second record of the filename collision pair. -/
def exColl2 : Test.CalendarEvent :=
  { name := "Team Sync", date := "2024-10-31", location := some "Room B" }

/-- Test.py record whose name contains a path separator. -/
def exSlash : Test.CalendarEvent := { name := "a/b", date := "2024-10-31" }

/-- Record produced from an object with neither name nor start_date. -/
def evUntitled : CalendarApp.CalendarEvent :=
  { name := "Untitled Event", start_date := "2024-06-01", location := some "X" }

/-- Claim C1, amended: the CalendarApp builder data transformation fails
exactly when a date or time string that the taken branch actually parses is
malformed (start_date always; end_date when truthy; start_time when truthy;
end_time only when start_time is also truthy) or when the computed end
would pass the maximum representable date, and the only raised errors are
the strptime ValueError (DateFormatError) and OverflowError. Time strings
the chosen branch ignores are not validated, and the timezone field is
never consulted, so unknown timezone identifiers never raise here. -/
theorem claim1_builder_failures (e : CalendarApp.CalendarEvent) :
    ((∃ err, CalendarApp.create_ics e = .error err) ↔ CalendarApp.failCond e) ∧
    (∀ err, CalendarApp.create_ics e = .error err →
      err = .dateFormatError ∨ err = .overflowError) :=
  ⟨CalendarApp.create_ics_error_iff e,
   fun err h => (CalendarApp.create_ics_error_full e err h).2⟩

/-- Witness for claim C1: the day-month-year start_date of the
specification example makes the builder fail. -/
theorem claim1_builder_failures_witness :
    ∃ err, CalendarApp.create_ics exBadStart = Except.error err :=
  (claim1_builder_failures exBadStart).1.mpr (Or.inl (by decide))

/-- Counterexample to claim C1 as stated: a record with a malformed
end_time but no start_time builds successfully, although the claim demands
failure for any malformed time string; and the well-formed record at
9999-12-31 fails with OverflowError, although the claim allows no failure
mode other than DateFormatError. -/
theorem claim1_builder_failures_cex :
    parseTime "nonsense" = none ∧
    CalendarApp.create_ics exBadEnd =
      .ok ⟨"Dinner", .dateVal ⟨2024, 10, 31⟩, .dateVal ⟨2024, 11, 1⟩, none, []⟩ ∧
    parseDate "9999-12-31" = some ⟨9999, 12, 31⟩ ∧
    CalendarApp.create_ics exOverflow = .error .overflowError :=
  ⟨by decide, rfl, by decide, rfl⟩

/-- Claim C2, amended: the CalendarApp builder ignores the timezone field
entirely, so both emitted timestamps are always zone-naive; only the
Test.py builder attaches the truthy timezone of the record to both the
emitted start and end timestamps (and emits zone-naive timestamps when the
timezone is absent or empty). -/
theorem claim2_timezone_amended :
    (∀ e p, CalendarApp.create_ics e = .ok p →
      CalendarApp.tzOf p.dtstart = none ∧ CalendarApp.tzOf p.dtend = none) ∧
    (∀ zdb dir e p f st, Test.create_ics_file zdb dir e = .ok (p, f) →
      truthyStr e.start_time = some st →
      CalendarApp.tzOf p.dtstart = truthyStr e.timezone ∧
      CalendarApp.tzOf p.dtend = truthyStr e.timezone) := by
  constructor
  · intro e p h
    obtain ⟨_, _, _, sd, ed, _, _, hbr⟩ := CalendarApp.create_ics_ok e p h
    rcases hbr with ⟨_, _, hs, he⟩ | ⟨st, sdt, _, _, hs, hinner⟩
    · rw [hs, he]
      exact ⟨rfl, rfl⟩
    · rcases hinner with ⟨et, edt, _, _, he⟩ | ⟨_, edt, _, he⟩ <;> rw [hs, he] <;>
        exact ⟨rfl, rfl⟩
  · intro zdb dir e p f st h hst
    obtain ⟨d, t, _, _, hte⟩ := Test.create_ics_file_timed zdb dir e p f st h hst
    exact Test.timedEvent_tz zdb e d t p hte

/-- Witness for claim C2: concrete timed records through both builders. -/
theorem claim2_timezone_amended_witness :
    (CalendarApp.tzOf exTzIcs.dtstart = none ∧ CalendarApp.tzOf exTzIcs.dtend = none) ∧
    (CalendarApp.tzOf exTestTzIcs.dtstart = truthyStr exTestTz.timezone ∧
     CalendarApp.tzOf exTestTzIcs.dtend = truthyStr exTestTz.timezone) :=
  ⟨claim2_timezone_amended.1 exTz exTzIcs rfl,
   claim2_timezone_amended.2 nyZdb "/app" exTestTz exTestTzIcs
     (Test.create_filename "/app" exTestTz) "09:00" rfl rfl⟩

/-- Counterexample to claim C2 as stated: the CalendarApp builder emits
zone-naive timestamps for a record whose timezone is present. -/
theorem claim2_timezone_cex :
    exTz.timezone = some "America/New_York" ∧
    CalendarApp.create_ics exTz = .ok exTzIcs ∧
    CalendarApp.tzOf exTzIcs.dtstart = none ∧
    CalendarApp.tzOf exTzIcs.dtend = none :=
  ⟨rfl, rfl, rfl, rfl⟩

/-- Claim C3: for a record without start_time the builder emits the parsed
start_date as the date-only start and one calendar day past the resolved
end date (the truthy end_date if any, otherwise start_date) as the
date-only exclusive end. -/
theorem claim3_allday_end (e : CalendarApp.CalendarEvent) (p : CalendarApp.IcsEvent)
    (h : CalendarApp.create_ics e = .ok p) (hst : truthyStr e.start_time = none) :
    ∃ sd ed, parseDate e.start_date = some sd ∧ CalendarApp.edResolved e sd ed ∧
      p.dtstart = .dateVal sd ∧ p.dtend = .dateVal (nextDay ed) := by
  obtain ⟨_, _, _, sd, ed, hsd, hres, hbr⟩ := CalendarApp.create_ics_ok e p h
  rcases hbr with ⟨_, _, hs, he⟩ | ⟨st, _, hst2, _⟩
  · exact ⟨sd, ed, hsd, hres, hs, he⟩
  · rw [hst] at hst2
    exact absurd hst2 (by simp)

/-- Witness for claim C3: the specification example, where start_date
2024-10-31 with no end_date yields the end marker 2024-11-01. -/
theorem claim3_allday_end_witness :
    (∃ sd ed, parseDate exHalloween.start_date = some sd ∧
      CalendarApp.edResolved exHalloween sd ed ∧
      exHalloweenIcs.dtstart = .dateVal sd ∧
      exHalloweenIcs.dtend = .dateVal (nextDay ed)) ∧
    exHalloweenIcs.dtstart = .dateVal ⟨2024, 10, 31⟩ ∧
    exHalloweenIcs.dtend = .dateVal ⟨2024, 11, 1⟩ :=
  ⟨claim3_allday_end exHalloween exHalloweenIcs rfl rfl, rfl, rfl⟩

/-- Claim C4: for a record with start_time but no end_time the builder
emits the combined start_date plus start_time as the start and exactly one
hour later as the end. -/
theorem claim4_default_duration (e : CalendarApp.CalendarEvent)
    (p : CalendarApp.IcsEvent) (st : String)
    (h : CalendarApp.create_ics e = .ok p)
    (hst : truthyStr e.start_time = some st)
    (het : truthyStr e.end_time = none) :
    ∃ sd t, parseDate e.start_date = some sd ∧ parseTime st = some t ∧
      p.dtstart = .dateTimeVal ⟨sd, t⟩ none ∧
      ∃ edt, addOneHour ⟨sd, t⟩ = some edt ∧ p.dtend = .dateTimeVal edt none := by
  obtain ⟨_, _, _, sd, ed, hsd, hres, hbr⟩ := CalendarApp.create_ics_ok e p h
  rcases hbr with ⟨hn, _⟩ | ⟨st2, sdt, hst2, hcomb, hdts, hinner⟩
  · rw [hst] at hn
    exact absurd hn (by simp)
  · have hss := hst2.symm.trans hst
    injection hss with hss
    subst hss
    have hsplit := parseDateTime_split e.start_date st2 sd hsd
    rw [hcomb] at hsplit
    cases hpt : parseTime st2 with
    | none =>
      rw [hpt] at hsplit
      exact absurd hsplit (by simp)
    | some t =>
      rw [hpt] at hsplit
      simp only [Option.map_some'] at hsplit
      injection hsplit with hsdt
      subst hsdt
      rcases hinner with ⟨et, edt, hetx, _, _⟩ | ⟨hetn, edt, hao, hdte⟩
      · rw [het] at hetx
        exact absurd hetx (by simp)
      · exact ⟨sd, t, hsd, rfl, hdts, edt, hao, hdte⟩

/-- Witness for claim C4: start 09:00 yields end 10:00 on the same day. -/
theorem claim4_default_duration_witness :
    (∃ sd t, parseDate exTimed.start_date = some sd ∧ parseTime "09:00" = some t ∧
      exTimedIcs.dtstart = .dateTimeVal ⟨sd, t⟩ none ∧
      ∃ edt, addOneHour ⟨sd, t⟩ = some edt ∧
        exTimedIcs.dtend = .dateTimeVal edt none) ∧
    exTimedIcs.dtend = .dateTimeVal ⟨⟨2024, 10, 31⟩, ⟨10, 0⟩⟩ none :=
  ⟨claim4_default_duration exTimed exTimedIcs "09:00" rfl rfl rfl, rfl⟩

/-- Claim C5, amended: descriptions in a batch are processed independently,
so an extraction failure on one description leaves all others untouched;
but within one description a builder failure aborts the remaining sibling
records: exactly the records before the first failing one are produced. -/
theorem claim5_batch_isolation_amended :
    (∀ cur l1 l2, CalendarApp.generate_ics cur (l1 ++ l2) =
      CalendarApp.generate_ics cur l1 ++ CalendarApp.generate_ics cur l2) ∧
    (∀ evs, CalendarApp.buildRecords evs =
      (evs.takeWhile (fun e => (CalendarApp.create_ics e).isOk)).filterMap
        (fun e => (CalendarApp.create_ics e).toOption)) ∧
    CalendarApp.generate_ics "2024-06-01"
      [("first", some (.arr [objA])), ("second", none), ("third", some (.arr [objC]))] =
      [icsA, icsC] :=
  ⟨CalendarApp.generate_ics_append, CalendarApp.buildRecords_takeWhile, rfl⟩

/-- Counterexample to claim C5 as stated: one description extracts to three
records of which the second fails to build; the third record builds on its
own, yet the batch produces only the first component, so the failure was
not confined to the single failing record. -/
theorem claim5_batch_isolation_cex :
    CalendarApp.parse_event "2024-06-01" (some respABC) = .ok [evA, evB, evC] ∧
    CalendarApp.create_ics evB = .error .dateFormatError ∧
    CalendarApp.create_ics evC = .ok icsC ∧
    CalendarApp.generate_ics "2024-06-01" [("d", some respABC)] = [icsA] :=
  ⟨rfl, rfl, rfl, rfl⟩

namespace Test

/-- Joining preserves every character of the joined component. -/
lemma joinPath_mem (dir s : String) (c : Char) (h : c ∈ s.data) :
    c ∈ (joinPath dir s).data := by
  unfold joinPath
  split_ifs
  · exact h
  · exact h
  · rw [strData_append]
    exact List.mem_append_right _ h
  · rw [strData_append]
    exact List.mem_append_right _ h

end Test

/-- Claim C6, amended: the CalendarApp builder returns the freshly
generated temporary file name chosen by the operating system, which is
unique but carries no trace of the event name or date; the Test.py builder
derives its filename from the event name and date but replaces only spaces
with underscores, so any other filesystem-unsafe character of the name
survives into the filename, and two distinct records sharing name and date
collide on the same filename. -/
theorem claim6_filename_amended :
    (∀ tempName (e : CalendarApp.CalendarEvent) p f,
      CalendarApp.create_ics_file tempName e = .ok (p, f) → f = tempName) ∧
    (∀ dir (e1 e2 : Test.CalendarEvent), e1.name = e2.name → e1.date = e2.date →
      Test.create_filename dir e1 = Test.create_filename dir e2) ∧
    (∀ dir (e : Test.CalendarEvent) c, c ∈ e.name.data → c ≠ ' ' →
      c ∈ (Test.create_filename dir e).data) := by
  refine ⟨?_, ?_, ?_⟩
  · intro tempName e p f h
    unfold CalendarApp.create_ics_file at h
    cases hc : CalendarApp.create_ics e with
    | ok q =>
      rw [hc] at h
      have h2 : (Except.ok (q, tempName) :
          Except CalendarApp.BuildErr (CalendarApp.IcsEvent × String)) = .ok (p, f) := h
      injection h2 with h3
      injection h3 with h4 h5
      exact h5.symm
    | error err =>
      rw [hc] at h
      exact absurd h (by simp [Except.map])
  · intro dir e1 e2 hn hd
    unfold Test.create_filename
    rw [hn, hd]
  · intro dir e c hc hne
    unfold Test.create_filename
    apply Test.joinPath_mem
    rw [strData_append, strData_append, strData_append]
    apply List.mem_append_left
    apply List.mem_append_left
    apply List.mem_append_left
    show c ∈ e.name.data.map (fun x => if x = ' ' then '_' else x)
    exact List.mem_map.mpr ⟨c, hc, by rw [if_neg hne]⟩

/-- Witness for claim C6: the collision pair and the surviving path
separator. -/
theorem claim6_filename_amended_witness :
    Test.create_filename "/app" exColl1 = Test.create_filename "/app" exColl2 ∧
    '/' ∈ (Test.create_filename "/app" exSlash).data :=
  ⟨claim6_filename_amended.2.1 "/app" exColl1 exColl2 rfl rfl,
   claim6_filename_amended.2.2 "/app" exSlash '/' (by decide) (by decide)⟩

/-- Counterexample to claim C6 as stated: two distinct records with equal
name and date receive the same suggested filename from the Test.py
builder, so the filename is not unique per record. -/
theorem claim6_filename_cex :
    exColl1 ≠ exColl2 ∧
    Test.create_filename "/app" exColl1 = Test.create_filename "/app" exColl2 :=
  ⟨by decide, rfl⟩

/-- Claim C7, amended: a top-level JSON list is used as the candidate list
unchanged; an object without an events key becomes the one-element list
holding that object; an object with an events key contributes whatever
value that key maps to, which is only a candidate list when it is a JSON
list — a non-list events value is not normalized and leads to the
unhandled TypeError of the iteration, not to ExtractionFormatError; and
the two ExtractionFormatError ValueErrors are raised exactly for an
undecodable response or a decoded scalar (neither list nor object). -/
theorem claim7_normalization_amended :
    (∀ l, CalendarApp.normalize_events (some (.arr l)) = .ok (.arr l)) ∧
    (∀ kvs, CalendarApp.jlookup kvs "events" = none →
      CalendarApp.normalize_events (some (.obj kvs)) = .ok (.arr [.obj kvs])) ∧
    (∀ kvs v, CalendarApp.jlookup kvs "events" = some v →
      CalendarApp.normalize_events (some (.obj kvs)) = .ok v) ∧
    (∀ cur r, (∃ err, CalendarApp.parse_event cur r = .error err ∧
        CalendarApp.isFormatErr err = true) ↔
      (r = none ∨ ∃ j, r = some j ∧ CalendarApp.isScalarJ j = true)) := by
  refine ⟨fun l => rfl, ?_, ?_, ?_⟩
  · intro kvs h
    show Except.ok (match CalendarApp.jlookup kvs "events" with
                    | some v => v
                    | none => Json.arr [Json.obj kvs]) =
      Except.ok (Json.arr [Json.obj kvs])
    rw [h]
  · intro kvs v h
    show Except.ok (match CalendarApp.jlookup kvs "events" with
                    | some w => w
                    | none => Json.arr [Json.obj kvs]) = Except.ok v
    rw [h]
  · intro cur r
    constructor
    · rintro ⟨err, herr, hfmt⟩
      cases r with
      | none => exact Or.inl rfl
      | some j =>
        cases j with
        | arr l =>
          have h2 : CalendarApp.validateEvents cur (Json.arr l) = .error err := herr
          have h3 := CalendarApp.validateEvents_error cur (Json.arr l) err h2
          rw [h3] at hfmt
          exact absurd hfmt (by decide)
        | obj kvs =>
          have h2 : CalendarApp.validateEvents cur
              (match CalendarApp.jlookup kvs "events" with
               | some v => v
               | none => Json.arr [Json.obj kvs]) = .error err := herr
          have h3 := CalendarApp.validateEvents_error cur _ err h2
          rw [h3] at hfmt
          exact absurd hfmt (by decide)
        | null => exact Or.inr ⟨.null, rfl, rfl⟩
        | bool b => exact Or.inr ⟨.bool b, rfl, rfl⟩
        | num n => exact Or.inr ⟨.num n, rfl, rfl⟩
        | str s => exact Or.inr ⟨.str s, rfl, rfl⟩
    · rintro (rfl | ⟨j, rfl, hs⟩)
      · exact ⟨.invalidJson, rfl, rfl⟩
      · cases j with
        | null => exact ⟨.unexpectedFormat, rfl, rfl⟩
        | bool b => exact ⟨.unexpectedFormat, rfl, rfl⟩
        | num n => exact ⟨.unexpectedFormat, rfl, rfl⟩
        | str s => exact ⟨.unexpectedFormat, rfl, rfl⟩
        | arr l => simp [CalendarApp.isScalarJ] at hs
        | obj kvs => simp [CalendarApp.isScalarJ] at hs

/-- Witness for claim C7: an undecodable response raises
ExtractionFormatError. -/
theorem claim7_normalization_amended_witness :
    ∃ err, CalendarApp.parse_event "2024-06-01" none = .error err ∧
      CalendarApp.isFormatErr err = true :=
  (claim7_normalization_amended.2.2.2 "2024-06-01" none).mpr (Or.inl rfl)

/-- Counterexample to claim C7 as stated: a parseable object whose events
key maps to a number is not normalized into any list; iterating it raises
TypeError, which is not an ExtractionFormatError. -/
theorem claim7_normalization_cex :
    CalendarApp.parse_event "2024-06-01" (some (.obj [("events", .num 42)])) =
      .error .typeError ∧
    CalendarApp.isFormatErr .typeError = false :=
  ⟨rfl, rfl⟩

/-- Claim C8, amended: over a candidate list all of whose elements are JSON
objects, an object that fails coercion is skipped and extraction continues,
returning the possibly empty list of validated records in response order;
but a non-object candidate (a number, boolean or null, and in general a
string or array as well) raises an unhandled TypeError that aborts the
whole extraction instead of being skipped. -/
theorem claim8_skip_amended (cur : String) (l : List Json)
    (h : ∀ j ∈ l, CalendarApp.isObjJ j = true) :
    CalendarApp.validateEvents cur (.arr l) =
      .ok (l.filterMap (CalendarApp.elemRecord cur)) :=
  CalendarApp.coerceLoop_all_obj cur l h

/-- Witness for claim C8: a batch of two objects where the second fails
coercion yields exactly the first record. -/
theorem claim8_skip_amended_witness :
    CalendarApp.validateEvents "2024-06-01" (.arr [objA, objBadParts]) = .ok [evA] := by
  have h := claim8_skip_amended "2024-06-01" [objA, objBadParts] (by decide)
  exact h.trans rfl

/-- Counterexample to claim C8 as stated: a parseable response whose second
candidate is the number 42 aborts the whole extraction with TypeError
instead of skipping the bad candidate, although the first candidate alone
extracts fine. -/
theorem claim8_skip_cex :
    CalendarApp.parse_event "2024-06-01" (some (.arr [objA, .num 42])) =
      .error .typeError ∧
    CalendarApp.parse_event "2024-06-01" (some (.arr [objA])) = .ok [evA] :=
  ⟨rfl, rfl⟩

/-- Claim C9: when the loop body coerces a candidate object into a record,
a missing or empty name field yields the placeholder name
"Untitled Event", and a missing or empty start_date field yields the
supplied reference date. -/
theorem claim9_extraction_defaults (cur : String) (kvs : List (String × Json))
    (ev : CalendarApp.CalendarEvent)
    (h : CalendarApp.processElem cur (.obj kvs) = .ok ev) :
    ((CalendarApp.jlookup kvs "name" = none ∨
      CalendarApp.jlookup kvs "name" = some (.str "")) →
      ev.name = "Untitled Event") ∧
    ((CalendarApp.jlookup kvs "start_date" = none ∨
      CalendarApp.jlookup kvs "start_date" = some (.str "")) →
      ev.start_date = cur) := by
  have hp : CalendarApp.parse_obj (CalendarApp.withDefaults cur kvs) = some ev := by
    have h2 : (match CalendarApp.parse_obj (CalendarApp.withDefaults cur kvs) with
               | some ev => CalendarApp.ElemResult.ok ev
               | none => CalendarApp.ElemResult.skip) = CalendarApp.ElemResult.ok ev := h
    cases hq : CalendarApp.parse_obj (CalendarApp.withDefaults cur kvs) with
    | some ev2 =>
      rw [hq] at h2
      injection h2 with h3
      rw [h3]
    | none =>
      rw [hq] at h2
      exact absurd h2 (by simp)
  obtain ⟨hn, hs⟩ :=
    CalendarApp.parse_obj_fields (CalendarApp.withDefaults cur kvs) ev hp
  constructor
  · intro hcond
    have hd := CalendarApp.missingOrEmpty_needsDefault kvs "name" hcond
    have hl := CalendarApp.withDefaults_name cur kvs hd
    rw [hl] at hn
    have hn2 : (some ("Untitled Event" : String)) = some ev.name := hn
    injection hn2 with hn3
    exact hn3.symm
  · intro hcond
    have hd := CalendarApp.missingOrEmpty_needsDefault kvs "start_date" hcond
    have hl := CalendarApp.withDefaults_start cur kvs hd
    rw [hl] at hs
    have hs2 : (some cur) = some ev.start_date := hs
    injection hs2 with hs3
    exact hs3.symm

/-- Witness for claim C9: an object with neither name nor start_date
coerces to a record carrying the placeholder and the reference date. -/
theorem claim9_extraction_defaults_witness :
    evUntitled.name = "Untitled Event" ∧ evUntitled.start_date = "2024-06-01" := by
  have h := claim9_extraction_defaults "2024-06-01" [("location", Json.str "X")]
    evUntitled rfl
  exact ⟨h.1 (Or.inl rfl), h.2 (Or.inl rfl)⟩

/-- Claim C10: every emitted component carries the location field exactly
when the record has a truthy location, and one MAILTO attendee reference
per participant, in input order. -/
theorem claim10_location_attendees (e : CalendarApp.CalendarEvent)
    (p : CalendarApp.IcsEvent) (h : CalendarApp.create_ics e = .ok p) :
    p.location = truthyStr e.location ∧
    p.attendees = (truthyList e.participants).map (fun q => "MAILTO:" ++ q) := by
  obtain ⟨_, h2, h3, _⟩ := CalendarApp.create_ics_ok e p h
  exact ⟨h2, h3⟩

/-- Witness for claim C10: location Room 5 and two participants yield one
location field and two attendee references in order. -/
theorem claim10_location_attendees_witness :
    exRoomIcs.location = some "Room 5" ∧
    exRoomIcs.attendees = ["MAILTO:a@example.com", "MAILTO:b@example.com"] := by
  have h := claim10_location_attendees exRoom exRoomIcs rfl
  exact ⟨h.1.trans rfl, h.2.trans rfl⟩
